import Mathlib

/-!
Verification of the YouTube community-post loader
(`langchain_community/document_loaders/youtube_community.py`).

The Python source is shallowly embedded: Python strings become `List Char`,
decoded JSON values become the inductive `Json`, and every fallible Python
operation returns `Except PyErr _`, with `try/except` blocks translated to
explicit matches on the error constructor they catch.
-/

set_option maxHeartbeats 1000000

namespace YtCommunity

/-- Python strings are modelled as lists of characters. -/
abbrev Str := List Char

/-- Characters of a Lean string literal, used to write concrete Python strings. -/
def chars (s : String) : Str := s.data

/-- The opening-brace character (written via its code point). -/
def lbrace : Char := Char.ofNat 123

/-- The closing-brace character (written via its code point). -/
def rbrace : Char := Char.ofNat 125

/-- A decoded JSON / Python value (`dict[str, Any]` trees).  Python dicts are
association lists whose keys are unique (the JSON decoder overwrites
duplicates), lookup takes the first match. -/
inductive Json where
  | null : Json
  | bool : Bool → Json
  | num : ℚ → Json
  | str : Str → Json
  | arr : List Json → Json
  | obj : List (Str × Json) → Json
deriving Repr

/-- Python exceptions raised by the embedded code.  `ValueError`s raised by
this module are split by their message so that the spec's error categories
(NotFound, MalformedJson, InvalidUrl subdivided by scheme/host/path) are
distinguishable. -/
inductive PyErr where
  | keyError : PyErr
  | indexError : PyErr
  | typeError : PyErr
  | attributeError : PyErr
  | notFound : PyErr         -- ValueError "Key ... not found"
  | malformedNoBrace : PyErr -- ValueError "Opening brace not found"
  | malformedJson : PyErr    -- json.JSONDecodeError
  | invalidScheme : PyErr    -- ValueError "Invalid URL scheme"
  | invalidNetloc : PyErr    -- ValueError "Invalid URL netloc"
  | invalidPath : PyErr      -- ValueError "Invalid URL path"
  | invalidIPv6 : PyErr      -- ValueError "Invalid IPv6 URL" (from urlsplit)
  | invalidBracketedHost : PyErr -- ValueError from _check_bracketed_host
deriving Repr, DecidableEq

/-- Python `d[k]` for a string key `k`: dict lookup raising `KeyError` when the
key is absent; subscripting any non-dict value with a string raises
`TypeError`. -/
def Json.getKey : Json → Str → Except PyErr Json
  | .obj kvs, k =>
    match kvs.lookup k with
    | some v => .ok v
    | none => .error .keyError
  | _, _ => .error .typeError

/-- Python `x[-1]`: last element of a list (`IndexError` when empty), last
character of a string (`IndexError` when empty), `KeyError` on a dict (our
keys are strings, never `-1`), `TypeError` otherwise. -/
def Json.getLastItem : Json → Except PyErr Json
  | .arr xs =>
    match xs.getLast? with
    | some v => .ok v
    | none => .error .indexError
  | .obj _ => .error .keyError
  | .str s =>
    match s.getLast? with
    | some c => .ok (.str [c])
    | none => .error .indexError
  | _ => .error .typeError

/-- Python `x[0]`: first element of a list (`IndexError` when empty), first
character of a string, `KeyError` on a dict, `TypeError` otherwise. -/
def Json.getItem0 : Json → Except PyErr Json
  | .arr xs =>
    match xs.head? with
    | some v => .ok v
    | none => .error .indexError
  | .obj _ => .error .keyError
  | .str s =>
    match s.head? with
    | some c => .ok (.str [c])
    | none => .error .indexError
  | _ => .error .typeError

/-- Python `d.get(k, default)`: total on dicts, `AttributeError` on anything
else (`.get` is a dict method). -/
def Json.getD : Json → Str → Json → Except PyErr Json
  | .obj kvs, k, d => .ok ((kvs.lookup k).getD d)
  | _, _, _ => .error .attributeError

/-- Python truthiness of a value. -/
def Json.truthy : Json → Bool
  | .null => false
  | .bool b => b
  | .num q => q ≠ 0
  | .str s => ¬ s.isEmpty
  | .arr xs => ¬ xs.isEmpty
  | .obj kvs => ¬ kvs.isEmpty

/-- Python iteration `for x in j`: the elements of a list, the characters of a
string (as one-character strings), the keys of a dict, `TypeError` for
non-iterables. -/
def pyIter : Json → Except PyErr (List Json)
  | .arr xs => .ok xs
  | .str s => .ok (s.map fun c => .str [c])
  | .obj kvs => .ok (kvs.map fun kv => .str kv.1)
  | _ => .error .typeError

/-- Sequential lookup `j[k1][k2]...` through a chain of string keys. -/
def getPath (j : Json) (ks : List Str) : Except PyErr Json :=
  ks.foldlM Json.getKey j

/-! ### Substring search (Python `str.find`) -/

/-- Predicate: `needle` occurs in `hay` at index `i` (spec-level predicate). -/
def occursAt (needle hay : Str) (i : Nat) : Prop :=
  (hay.drop i).take needle.length = needle

instance (needle hay : Str) (i : Nat) : Decidable (occursAt needle hay i) := by
  unfold occursAt; infer_instance

/-- Predicate: `needle` occurs somewhere in `hay` (spec-level predicate). -/
def occursIn (needle hay : Str) : Prop :=
  ∃ i, occursAt needle hay i

/-- Test whether `hay` starts with `needle` (implementation-side boolean). -/
def startsWith : Str → Str → Bool
  | _, [] => true
  | [], _ :: _ => false
  | h :: hs, n :: ns => h = n && startsWith hs ns

/-- Python `hay.find(needle)`: index of the first occurrence, `none`
standing for Python's `-1`. -/
def strFind (hay needle : Str) : Option Nat :=
  go hay 0
where
  go : Str → Nat → Option Nat
  | hs, i =>
    if startsWith hs needle then some i
    else
      match hs with
      | [] => none
      | _ :: t => go t (i + 1)

/-- Python `hay.find(c, start)` for a single character. -/
def charFindFrom (hay : Str) (c : Char) (start : Nat) : Option Nat :=
  (strFind (hay.drop start) [c]).map (· + start)

theorem startsWith_iff (hay needle : Str) :
    startsWith hay needle = true ↔ hay.take needle.length = needle := by
  induction hay generalizing needle with
  | nil =>
    cases needle with
    | nil => simp [startsWith]
    | cons n ns => simp [startsWith]
  | cons h t ih =>
    cases needle with
    | nil => simp [startsWith]
    | cons n ns =>
      simp [startsWith, ih, List.take_succ_cons]

theorem occursAt_iff_startsWith (needle hay : Str) (i : Nat) :
    occursAt needle hay i ↔ startsWith (hay.drop i) needle = true := by
  rw [occursAt, startsWith_iff]

private theorem strFind_go_eq_none (needle : Str) :
    ∀ (hs : Str) (i : Nat), strFind.go needle hs i = none →
      ∀ j, ¬ occursAt needle hs j := by
  intro hs
  induction hs with
  | nil =>
    intro i hnone j
    rw [strFind.go] at hnone
    by_cases hsw : startsWith [] needle
    · simp [hsw] at hnone
    · rw [occursAt_iff_startsWith]
      simpa [List.drop_nil] using hsw
  | cons h t ih =>
    intro i hnone j
    rw [strFind.go] at hnone
    by_cases hsw : startsWith (h :: t) needle
    · simp [hsw] at hnone
    · simp [hsw] at hnone
      cases j with
      | zero =>
        rw [occursAt_iff_startsWith]
        simpa using hsw
      | succ j' =>
        have h2 := ih (i + 1) hnone j'
        rw [occursAt_iff_startsWith] at h2 ⊢
        simpa using h2

/-- Lemma: `strFind` returns `none` exactly when the needle never occurs. -/
theorem strFind_none_iff (hay needle : Str) :
    strFind hay needle = none ↔ ¬ occursIn needle hay := by
  constructor
  · intro hnone ⟨j, hj⟩
    exact strFind_go_eq_none needle hay 0 hnone j hj
  · intro hno
    by_contra h
    cases hfind : strFind hay needle with
    | none => exact h hfind
    | some i =>
      exfalso
      apply hno
      -- extract an occurrence from a successful find
      suffices hs : ∀ (hs : Str) (i0 r : Nat), strFind.go needle hs i0 = some r →
          ∃ j, occursAt needle hs j by
        obtain ⟨j, hj⟩ := hs hay 0 i hfind
        exact ⟨j, hj⟩
      intro hs
      induction hs with
      | nil =>
        intro i0 r hgo
        rw [strFind.go] at hgo
        by_cases hsw : startsWith [] needle
        · exact ⟨0, by rw [occursAt_iff_startsWith]; simpa using hsw⟩
        · simp [hsw] at hgo
      | cons h t ih =>
        intro i0 r hgo
        rw [strFind.go] at hgo
        by_cases hsw : startsWith (h :: t) needle
        · exact ⟨0, by rw [occursAt_iff_startsWith]; simpa using hsw⟩
        · simp [hsw] at hgo
          obtain ⟨j, hj⟩ := ih (i0 + 1) r hgo
          exact ⟨j + 1, by rw [occursAt_iff_startsWith] at hj ⊢; simpa using hj⟩

private theorem strFind_go_some (needle : Str) :
    ∀ (hs : Str) (i0 r : Nat), strFind.go needle hs i0 = some r →
      r ≥ i0 ∧ occursAt needle hs (r - i0) ∧ ∀ j < r - i0, ¬ occursAt needle hs j := by
  intro hs
  induction hs with
  | nil =>
    intro i0 r hgo
    rw [strFind.go] at hgo
    by_cases hsw : startsWith [] needle
    · simp [hsw] at hgo
      subst hgo
      refine ⟨le_refl _, ?_, ?_⟩
      · rw [Nat.sub_self, occursAt_iff_startsWith]; simpa using hsw
      · intro j hj; omega
    · simp [hsw] at hgo
  | cons h t ih =>
    intro i0 r hgo
    rw [strFind.go] at hgo
    by_cases hsw : startsWith (h :: t) needle
    · simp [hsw] at hgo
      subst hgo
      refine ⟨le_refl _, ?_, ?_⟩
      · rw [Nat.sub_self, occursAt_iff_startsWith]; simpa using hsw
      · intro j hj; omega
    · simp [hsw] at hgo
      obtain ⟨hge, hocc, hmin⟩ := ih (i0 + 1) r hgo
      refine ⟨by omega, ?_, ?_⟩
      · have : r - i0 = (r - (i0 + 1)) + 1 := by omega
        rw [this, occursAt_iff_startsWith]
        rw [occursAt_iff_startsWith] at hocc
        simpa using hocc
      · intro j hj
        cases j with
        | zero =>
          rw [occursAt_iff_startsWith]; simpa using hsw
        | succ j' =>
          have := hmin j' (by omega)
          rw [occursAt_iff_startsWith] at this ⊢
          simpa using this

/-- Lemma: `strFind` returns the index of the first occurrence. -/
theorem strFind_some_iff (hay needle : Str) (i : Nat) :
    strFind hay needle = some i ↔
      occursAt needle hay i ∧ ∀ j < i, ¬ occursAt needle hay j := by
  constructor
  · intro hfind
    obtain ⟨_, hocc, hmin⟩ := strFind_go_some needle hay 0 i hfind
    simpa using ⟨hocc, hmin⟩
  · intro ⟨hocc, hmin⟩
    cases hfind : strFind hay needle with
    | none =>
      exact absurd ⟨i, hocc⟩ ((strFind_none_iff hay needle).mp hfind)
    | some r =>
      obtain ⟨_, hocc', hmin'⟩ := strFind_go_some needle hay 0 r hfind
      simp only [Nat.sub_zero] at hocc' hmin'
      rcases Nat.lt_trichotomy r i with hlt | heq | hgt
      · exact absurd hocc' (hmin r hlt)
      · rw [heq]
      · exact absurd hocc (hmin' i hgt)

/-! ### JSON decoding (model of Python `json.JSONDecoder.raw_decode`)

`raw_decode` parses exactly one complete JSON value starting at the given
position and returns it together with the index where it stopped; trailing
text is left untouched.  The model below implements strict JSON (the default
decoder): objects, arrays, strings with escapes, numbers, `true`/`false`/
`null`; unescaped control characters in strings are rejected.  Python number
literals (int/float) are idealized as exact rationals, and the non-standard
`NaN`/`Infinity` constants are not modelled. -/

/-- JSON inter-token whitespace. -/
def jsonWs (c : Char) : Bool :=
  c = ' ' || c = '\t' || c = '\n' || c = '\r'

/-- Skip JSON whitespace. -/
def skipWs (s : Str) : Str := s.dropWhile jsonWs

/-- Value of a hexadecimal digit. -/
def hexDigit (c : Char) : Option Nat :=
  if '0' ≤ c ∧ c ≤ '9' then some (c.toNat - 48)
  else if 'a' ≤ c ∧ c ≤ 'f' then some (c.toNat - 87)
  else if 'A' ≤ c ∧ c ≤ 'F' then some (c.toNat - 55)
  else none

/-- Parse exactly four hex digits. -/
def parseHex4 : Str → Option (Nat × Str)
  | a :: b :: c :: d :: rest => do
    let va ← hexDigit a
    let vb ← hexDigit b
    let vc ← hexDigit c
    let vd ← hexDigit d
    some (((va * 16 + vb) * 16 + vc) * 16 + vd, rest)
  | _ => none

/-- Parse the body of a JSON string (after the opening quote), returning the
decoded characters and the text after the closing quote.  Surrogate pairs in
`\uXXXX` escapes are combined; a lone surrogate (which Python would keep as a
surrogate code unit) is idealized via `Char.ofNat`. -/
def parseStringBody : Nat → Str → Option (Str × Str)
  | 0, _ => none
  | fuel + 1, s =>
    match s with
    | [] => none
    | c :: rest =>
      if c = '"' then some ([], rest)
      else if c = '\\' then
        match rest with
        | [] => none
        | e :: rest2 =>
          let cont : Char → Str → Option (Str × Str) := fun ch r => do
            let (tail, rem) ← parseStringBody fuel r
            some (ch :: tail, rem)
          if e = '"' then cont '"' rest2
          else if e = '\\' then cont '\\' rest2
          else if e = '/' then cont '/' rest2
          else if e = 'b' then cont (Char.ofNat 8) rest2
          else if e = 'f' then cont (Char.ofNat 12) rest2
          else if e = 'n' then cont '\n' rest2
          else if e = 'r' then cont '\r' rest2
          else if e = 't' then cont '\t' rest2
          else if e = 'u' then
            match parseHex4 rest2 with
            | none => none
            | some (n, rest3) =>
              if 0xD800 ≤ n ∧ n ≤ 0xDBFF then
                match rest3 with
                | '\\' :: 'u' :: rest4 =>
                  match parseHex4 rest4 with
                  | some (n2, rest5) =>
                    if 0xDC00 ≤ n2 ∧ n2 ≤ 0xDFFF then
                      cont (Char.ofNat (0x10000 + (n - 0xD800) * 0x400 + (n2 - 0xDC00))) rest5
                    else cont (Char.ofNat n) rest3
                  | none => cont (Char.ofNat n) rest3
                | _ => cont (Char.ofNat n) rest3
              else cont (Char.ofNat n) rest3
          else none
      else if c.toNat < 0x20 then none
      else do
        let (tail, rem) ← parseStringBody fuel rest
        some (c :: tail, rem)

/-- Digits to a natural number. -/
def digitsToNat (ds : Str) : Nat :=
  ds.foldl (fun a c => a * 10 + (c.toNat - 48)) 0

/-- Fraction / exponent continuation of `parseNumber`, mirroring the decoder's
`NUMBER_RE` `(-?(?:0|[1-9]\d*))(\.\d+)?([eE][-+]?\d+)?`: each optional group
that fails to match simply ends the number. -/
def numberTail (neg : Bool) (ip : Nat) (s : Str) : ℚ × Str :=
  let fr : Option Str × Str :=
    match s with
    | '.' :: r =>
      let ds := r.takeWhile Char.isDigit
      if ds.isEmpty then (none, s) else (some ds, r.dropWhile Char.isDigit)
    | _ => (none, s)
  let s2 := fr.2
  let ex : Option ℤ × Str :=
    match s2 with
    | e :: r =>
      if e = 'e' ∨ e = 'E' then
        let (sgn, r2) : ℤ × Str :=
          match r with
          | '-' :: r3 => (-1, r3)
          | '+' :: r3 => (1, r3)
          | _ => (1, r)
        let ds := r2.takeWhile Char.isDigit
        if ds.isEmpty then (none, s2)
        else (some (sgn * (digitsToNat ds : ℤ)), r2.dropWhile Char.isDigit)
      else (none, s2)
    | [] => (none, s2)
  let base : ℚ :=
    match fr.1 with
    | none => (ip : ℚ)
    | some ds => (ip : ℚ) + (digitsToNat ds : ℚ) / ((10 : ℚ) ^ ds.length)
  let scaled : ℚ :=
    match ex.1 with
    | none => base
    | some e => base * (10 : ℚ) ^ e
  (if neg then -scaled else scaled, ex.2)

/-- Parse a JSON number at the head of `s`. -/
def parseNumber (s : Str) : Option (ℚ × Str) :=
  let (neg, s1) : Bool × Str :=
    match s with
    | '-' :: r => (true, r)
    | _ => (false, s)
  match s1 with
  | c :: r =>
    if c = '0' then some (numberTail neg 0 r)
    else if c.isDigit then
      let ds := (c :: r).takeWhile Char.isDigit
      some (numberTail neg (digitsToNat ds) ((c :: r).dropWhile Char.isDigit))
    else none
  | [] => none

/-- Python dict insertion: a duplicate key overwrites the stored value in
place, otherwise the binding is appended. -/
def insertKV (acc : List (Str × Json)) (k : Str) (v : Json) : List (Str × Json) :=
  if acc.any (fun kv => kv.1 = k) then
    acc.map (fun kv => if kv.1 = k then (k, v) else kv)
  else acc ++ [(k, v)]

mutual

/-- Parse one JSON value at the head of `s` (no leading whitespace allowed,
as in `raw_decode`). -/
def parseVal : Nat → Str → Option (Json × Str)
  | 0, _ => none
  | fuel + 1, s =>
    match s with
    | [] => none
    | c :: rest =>
      if c = '"' then (parseStringBody (fuel + 1) rest).map (fun p => (Json.str p.1, p.2))
      else if c = lbrace then
        let r := skipWs rest
        match r with
        | [] => none
        | c2 :: r2 => if c2 = rbrace then some (.obj [], r2) else parseMembers fuel [] r
      else if c = '[' then
        let r := skipWs rest
        match r with
        | ']' :: r2 => some (.arr [], r2)
        | _ => parseItems fuel [] r
      else if c = 't' then
        match rest with
        | 'r' :: 'u' :: 'e' :: r => some (.bool true, r)
        | _ => none
      else if c = 'f' then
        match rest with
        | 'a' :: 'l' :: 's' :: 'e' :: r => some (.bool false, r)
        | _ => none
      else if c = 'n' then
        match rest with
        | 'u' :: 'l' :: 'l' :: r => some (.null, r)
        | _ => none
      else if c = '-' ∨ c.isDigit then
        (parseNumber s).map (fun p => (Json.num p.1, p.2))
      else none

/-- Parse object members; `s` is positioned at the opening quote of a key. -/
def parseMembers : Nat → List (Str × Json) → Str → Option (Json × Str)
  | 0, _, _ => none
  | fuel + 1, acc, s =>
    match s with
    | '"' :: rest =>
      match parseStringBody (fuel + 1) rest with
      | none => none
      | some (k, r1) =>
        match skipWs r1 with
        | ':' :: r3 =>
          match parseVal fuel (skipWs r3) with
          | none => none
          | some (v, r4) =>
            let acc2 := insertKV acc k v
            match skipWs r4 with
            | ',' :: r6 => parseMembers fuel acc2 (skipWs r6)
            | c :: r6 => if c = rbrace then some (.obj acc2, r6) else none
            | [] => none
        | _ => none
    | _ => none

/-- Parse array items; `s` is positioned at the first item. -/
def parseItems : Nat → List Json → Str → Option (Json × Str)
  | 0, _, _ => none
  | fuel + 1, acc, s =>
    match parseVal fuel s with
    | none => none
    | some (v, r1) =>
      match skipWs r1 with
      | ',' :: r3 => parseItems fuel (acc ++ [v]) (skipWs r3)
      | ']' :: r3 => some (.arr (acc ++ [v]), r3)
      | _ => none

end

/-- Model of `json.JSONDecoder().raw_decode`: decode exactly one complete
JSON value at the head of `s`, returning it with the remaining (ignored)
text; `none` models `json.JSONDecodeError`. -/
def rawDecode (s : Str) : Option (Json × Str) :=
  parseVal (2 * s.length + 2) s

/-! ### `_extract_json_from_html` -/

/-- The marker `f'"{key}":'` searched for in the blob. -/
def encodedKey (key : Str) : Str := '"' :: key ++ ['"', ':']

/-- Model of `_extract_json_from_html(raw, key)`: locate the first occurrence of the
quoted key, find the first `{` after it, and decode one JSON value from
there. -/
def extract_json_from_html (raw : Str) (key : Str) : Except PyErr Json :=
  match strFind raw (encodedKey key) with
  | none => .error .notFound
  | some keyPos =>
    match charFindFrom raw lbrace (keyPos + (encodedKey key).length) with
    | none => .error .malformedNoBrace
    | some bracePos =>
      match rawDecode (raw.drop bracePos) with
      | some (o, _) => .ok o
      | none => .error .malformedJson

/-! ### URL validation (`_parse_community_post_url`)

`urllib.parse.urlparse` (CPython 3.11) is modelled for the components the
code reads (scheme, netloc, path): WHATWG control-character stripping,
scheme split, `//`-netloc split with the IPv6 bracket-mismatch check and the
`_check_bracketed_host` validation (IPv6 / IPvFuture literal syntax),
fragment/query removal, and the `uses_params`-guarded `;`-parameter split of
`urlparse`.  The `_checknetloc` NFKC check returns immediately for all-ASCII
netlocs and its non-ASCII branch is not modelled, so the C3 theorems below
are stated for all-ASCII URLs. -/

/-- The allowed URL schemes (`ALLOWED_SCHEMES`). -/
def allowedSchemes : List Str := [chars ("http"), chars ("https")]

/-- The allowed host names (`ALLOWED_NETLOCS`). -/
def allowedNetlocs : List Str :=
  [chars ("youtu.be"), chars ("m.youtube.com"), chars ("youtube.com"),
   chars ("www.youtube.com"), chars ("www.youtube-nocookie.com")]

/-- The components of a parsed URL that the validator reads. -/
structure UrlParts where
  scheme : Str
  netloc : Str
  path : Str
deriving Repr, DecidableEq

/-- Membership in `urllib.parse.scheme_chars`. -/
def schemeChar (c : Char) : Bool :=
  c.isAlpha || c.isDigit || c = '+' || c = '-' || c = '.'

/-- ASCII lowercasing (Python `str.lower` on scheme candidates, which are
all-ASCII by construction). -/
def lowerStr (s : Str) : Str := s.map Char.toLower

/-- Model of `urlparse`'s `_splitparams`: drop a `;`-parameter suffix from the last
path segment. -/
def stripParams (p : Str) : Str :=
  if p.contains ';' then
    if p.contains '/' then
      match strFind p.reverse ['/'] with
      | some ri =>
        let k := p.length - 1 - ri
        let afterSlash := p.drop (k + 1)
        if afterSlash.contains ';' then
          p.take (k + 1) ++ afterSlash.takeWhile (fun c => c ≠ ';')
        else p
      | none => p
    else p.takeWhile (fun c => c ≠ ';')
  else p

/-- Model of `ipaddress.IPv4Address._parse_octet`: ASCII decimal digits
only, at most three of them, no leading zero (except `"0"` itself), value at
most 255. -/
def validOctet (s : Str) : Bool :=
  ¬ s.isEmpty && s.length ≤ 3 && s.all Char.isDigit &&
  (s = ['0'] || s.head? ≠ some '0') && digitsToNat s ≤ 255

/-- Model of `ipaddress.IPv4Address` string validity: exactly four
`.`-separated valid octets. -/
def validIPv4 (s : Str) : Bool :=
  let parts := s.splitOn '.'
  parts.length = 4 && parts.all validOctet

/-- Model of `ipaddress.IPv6Address._parse_hextet`: one to four hex
digits. -/
def validHextet (s : Str) : Bool :=
  ¬ s.isEmpty && s.length ≤ 4 && s.all (fun c => (hexDigit c).isSome)

/-- Model of the part-list acceptance of
`ipaddress.IPv6Address._ip_int_from_string` (after the optional IPv4 suffix
has been replaced by two hextets): at most nine parts; at most one empty
interior part (the `::` elision, mandatory unless exactly eight parts); an
empty first or last part only adjacent to the elision; at most seven
explicit hextets alongside an elision; every explicit part a valid
hextet. -/
def validIPv6Parts (parts : List Str) : Bool :=
  if 9 < parts.length then false
  else
    let n := parts.length
    let interior := (parts.drop 1).take (n - 2)
    let emptyCount := interior.countP List.isEmpty
    if 1 < emptyCount then false
    else if emptyCount = 1 then
      let skipIdx := interior.findIdx List.isEmpty + 1
      let hi0 := skipIdx
      let lo0 := n - skipIdx - 1
      let firstEmpty := (parts.headD ['x']).isEmpty
      let lastEmpty := (parts.getLastD ['x']).isEmpty
      if firstEmpty && hi0 ≠ 1 then false
      else if lastEmpty && lo0 ≠ 1 then false
      else
        let hi := if firstEmpty then hi0 - 1 else hi0
        let lo := if lastEmpty then lo0 - 1 else lo0
        if 8 ≤ hi + lo then false
        else (parts.take hi).all validHextet && (parts.drop (n - lo)).all validHextet
    else
      n = 8 && ¬ (parts.headD ['x']).isEmpty && ¬ (parts.getLastD ['x']).isEmpty &&
        parts.all validHextet

/-- Model of `ipaddress.IPv6Address._ip_int_from_string` validity: at least
three `:`-separated parts; a dotted last part must be a valid IPv4 address
and stands for two hextets. -/
def validIPv6Addr (addr : Str) : Bool :=
  let parts0 := addr.splitOn ':'
  if parts0.length < 3 then false
  else
    let lastP := parts0.getLastD []
    if lastP.contains '.' then
      validIPv4 lastP && validIPv6Parts (parts0.dropLast ++ [['0'], ['0']])
    else validIPv6Parts parts0

/-- Model of `ipaddress.IPv6Address` string validity: no `/`; an optional
`%scope` suffix (nonempty, no further `%`); the address part as above. -/
def validIPv6Full (s : Str) : Bool :=
  if s.contains '/' then false
  else
    let addr := s.takeWhile (fun c => c ≠ '%')
    let scope := (s.dropWhile (fun c => c ≠ '%')).drop 1
    (if s.contains '%' then ¬ scope.isEmpty && ¬ scope.contains '%' else true) &&
    validIPv6Addr addr

/-- Model of the IPvFuture regex `\Av[a-fA-F0-9]+\..+\Z`: `v`, one or more
hex digits, a dot, then at least one character with no newline to the
end. -/
def validIPvFuture (s : Str) : Bool :=
  match s with
  | 'v' :: rest =>
    let hexPart := rest.takeWhile (fun c => (hexDigit c).isSome)
    let rest2 := rest.dropWhile (fun c => (hexDigit c).isSome)
    ¬ hexPart.isEmpty &&
      (match rest2 with
       | '.' :: tail => ¬ tail.isEmpty && ¬ tail.contains '\n'
       | _ => false)
  | _ => false

/-- Model of `urllib.parse._check_bracketed_host`: a host starting with `v`
must be an IPvFuture literal; otherwise `ipaddress.ip_address` must accept
it and the result must not be IPv4 — since a valid IPv4 string is never a
valid IPv6 string, this is IPv6 validity. -/
def checkBracketedHost (h : Str) : Bool :=
  match h with
  | 'v' :: _ => validIPvFuture h
  | _ => validIPv6Full h

/-- Model of `urllib.parse.urlsplit` (CPython 3.11) restricted to
scheme/netloc/path (query and fragment are split off and dropped).  The
`_checknetloc` NFKC check is a no-op for all-ASCII netlocs and is otherwise
not modelled. -/
def urlsplit (url0 : Str) : Except PyErr UrlParts :=
  let url1 := url0.dropWhile (fun c => c.toNat ≤ 32)
  let url2 := url1.filter (fun c => c ≠ '\t' ∧ c ≠ '\r' ∧ c ≠ '\n')
  let sp : Str × Str :=
    match strFind url2 [':'] with
    | some i =>
      if 0 < i ∧ (match url2.head? with | some c0 => c0.isAlpha | none => false) = true
          ∧ (url2.take i).all schemeChar then
        (lowerStr (url2.take i), url2.drop (i + 1))
      else ([], url2)
    | none => ([], url2)
  let scheme := sp.1
  let rest := sp.2
  match rest with
  | '/' :: '/' :: r2 =>
    let netloc := r2.takeWhile (fun c => c ≠ '/' ∧ c ≠ '?' ∧ c ≠ '#')
    let r3 := r2.dropWhile (fun c => c ≠ '/' ∧ c ≠ '?' ∧ c ≠ '#')
    if (netloc.contains '[' ∧ ¬ netloc.contains ']') ∨
        (netloc.contains ']' ∧ ¬ netloc.contains '[') then
      .error .invalidIPv6
    else if netloc.contains '[' ∧ netloc.contains ']' ∧
        ¬ checkBracketedHost
          (((netloc.dropWhile (fun c => c ≠ '[')).drop 1).takeWhile
            (fun c => c ≠ ']')) then
      .error .invalidBracketedHost
    else
      .ok { scheme := scheme, netloc := netloc,
            path := (r3.takeWhile (fun c => c ≠ '#')).takeWhile (fun c => c ≠ '?') }
  | _ =>
    .ok { scheme := scheme, netloc := [],
          path := (rest.takeWhile (fun c => c ≠ '#')).takeWhile (fun c => c ≠ '?') }

/-- The schemes of `urllib.parse.uses_params` (those for which `urlparse`
performs the `;`-parameter split). -/
def usesParams : List Str :=
  [[], chars ("ftp"), chars ("hdl"), chars ("prospero"), chars ("http"),
   chars ("imap"), chars ("https"), chars ("shttp"), chars ("rtsp"),
   chars ("rtspu"), chars ("sip"), chars ("sips"), chars ("mms"),
   chars ("sftp"), chars ("tel")]

/-- Model of `urllib.parse.urlparse`: the `params` split applied on top of
`urlsplit` when the scheme uses parameters. -/
def urlparse (url : Str) : Except PyErr UrlParts := do
  let p ← urlsplit url
  pure { p with path :=
    if p.scheme ∈ usesParams then stripParams p.path else p.path }

/-- Python `path.split("/")[-1]`. -/
def lastSegment (p : Str) : Str := (p.splitOn '/').getLastD []

/-- Model of `_parse_community_post_url`: validate scheme, netloc and the presence of
a `/post/` path segment, then return the last path segment. -/
def parse_community_post_url (url : Str) : Except PyErr Str := do
  let parsed ← urlparse url
  if parsed.scheme ∈ allowedSchemes then
    if parsed.netloc ∈ allowedNetlocs then
      if (strFind parsed.path (chars ("/post/"))).isSome then
        pure (lastSegment parsed.path)
      else .error .invalidPath
    else .error .invalidNetloc
  else .error .invalidScheme

/-! ### Field extractors -/

/-- Python `f"{x}"` (`str(x)`) for values interpolated into f-strings here.
Strings are verbatim and `None`/booleans/integers render as Python does;
the remaining kinds (which no theorem below exercises: Python would render
floats, lists and dicts via `repr`) get fixed placeholder renderings. -/
def pyFormat : Json → Str
  | .str s => s
  | .null => chars ("None")
  | .bool true => chars ("True")
  | .bool false => chars ("False")
  | .num q =>
    if q.den = 1 then
      (if q.num < 0 then ['-'] else []) ++ Nat.toDigits 10 q.num.natAbs
    else chars ("<float>")
  | .arr _ => chars ("<list>")
  | .obj _ => chars ("<dict>")

/-- Model of `_get_video_link`: the watch URL built from the video id, `none` when the
attachment path is missing (`KeyError` caught). -/
def get_video_link (post : Json) : Except PyErr (Option Str) :=
  match getPath post [chars ("backstageAttachment"), chars ("videoRenderer"),
      chars ("videoId")] with
  | .ok vid => .ok (some (chars ("https://www.youtube.com/watch?v=") ++ pyFormat vid))
  | .error .keyError => .ok none
  | .error e => .error e

/-- The single-image lookup in `_get_image_links`'s first `try`:
`post["backstageAttachment"]["backstageImageRenderer"]["image"]["thumbnails"][-1]["url"]`. -/
def singleImageLookup (post : Json) : Except PyErr Json := do
  let t ← getPath post [chars ("backstageAttachment"), chars ("backstageImageRenderer"),
    chars ("image"), chars ("thumbnails")]
  let last ← t.getLastItem
  last.getKey (chars ("url"))

/-- The loop body of `_get_image_links`'s second `try` for one image. -/
def imageStep (image : Json) : Except PyErr Json := do
  let t ← getPath image [chars ("backstageImageRenderer"), chars ("image"),
    chars ("thumbnails")]
  let last ← t.getLastItem
  last.getKey (chars ("url"))

/-- The body of `_get_image_links`'s second `try`: the last thumbnail URL of
each entry of `post["backstageAttachment"]["postMultiImageRenderer"]["images"]`. -/
def multiImageLookup (post : Json) : Except PyErr (List Json) := do
  let images ← getPath post [chars ("backstageAttachment"),
    chars ("postMultiImageRenderer"), chars ("images")]
  let items ← pyIter images
  items.mapM imageStep

/-- Model of `_get_image_links`: try the single-image path, then the multi-image path;
only `KeyError` falls through, and an empty multi-image list yields `None`. -/
def get_image_links (post : Json) : Except PyErr (Option (List Json)) :=
  match singleImageLookup post with
  | .ok url => .ok (some [url])
  | .error .keyError =>
    match multiImageLookup post with
    | .ok links => .ok (if links.isEmpty then none else some links)
    | .error .keyError => .ok none
    | .error e => .error e
  | .error e => .error e

/-- The regex search `re.findall(r"(?<=q=)(.+)", s)[0]`: the first position
preceded by the two characters `q=` and followed by at least one non-newline
character starts the greedy capture, which runs to the end of that line. -/
def findQCapture : Str → Option Str
  | [] => none
  | a :: t =>
    match t with
    | b :: c :: _ =>
      if a = 'q' && b = '=' && c ≠ '\n' then
        some ((t.drop 1).takeWhile (fun x => x ≠ '\n'))
      else findQCapture t
    | _ => findQCapture t

/-- U+FFFD, the decoding replacement character. -/
def replacementChar : Char := Char.ofNat 0xFFFD

/-- Continuation-byte range check for the second byte of a multi-byte UTF-8
sequence (tight ranges excluding overlong and surrogate encodings). -/
def utf8Second (b b2 : Nat) : Bool :=
  if b = 0xE0 then 0xA0 ≤ b2 && b2 ≤ 0xBF
  else if b = 0xED then 0x80 ≤ b2 && b2 ≤ 0x9F
  else if b = 0xF0 then 0x90 ≤ b2 && b2 ≤ 0xBF
  else if b = 0xF4 then 0x80 ≤ b2 && b2 ≤ 0x8F
  else 0x80 ≤ b2 && b2 ≤ 0xBF

/-- Fueled worker for `utf8Decode`. -/
def utf8DecodeAux : Nat → List Nat → Str
  | 0, _ => []
  | _, [] => []
  | fuel + 1, b :: rest =>
    if b < 0x80 then Char.ofNat b :: utf8DecodeAux fuel rest
    else if 0xC2 ≤ b ∧ b ≤ 0xDF then
      match rest with
      | b2 :: rest2 =>
        if 0x80 ≤ b2 ∧ b2 ≤ 0xBF then
          Char.ofNat ((b - 0xC0) * 0x40 + (b2 - 0x80)) :: utf8DecodeAux fuel rest2
        else replacementChar :: utf8DecodeAux fuel rest
      | [] => [replacementChar]
    else if 0xE0 ≤ b ∧ b ≤ 0xEF then
      match rest with
      | b2 :: b3 :: rest3 =>
        if utf8Second b b2 ∧ 0x80 ≤ b3 ∧ b3 ≤ 0xBF then
          Char.ofNat ((b - 0xE0) * 0x1000 + (b2 - 0x80) * 0x40 + (b3 - 0x80)) ::
            utf8DecodeAux fuel rest3
        else replacementChar :: utf8DecodeAux fuel rest
      | _ => replacementChar :: utf8DecodeAux fuel rest
    else if 0xF0 ≤ b ∧ b ≤ 0xF4 then
      match rest with
      | b2 :: b3 :: b4 :: rest4 =>
        if utf8Second b b2 ∧ 0x80 ≤ b3 ∧ b3 ≤ 0xBF ∧ 0x80 ≤ b4 ∧ b4 ≤ 0xBF then
          Char.ofNat ((b - 0xF0) * 0x40000 + (b2 - 0x80) * 0x1000 +
            (b3 - 0x80) * 0x40 + (b4 - 0x80)) :: utf8DecodeAux fuel rest4
        else replacementChar :: utf8DecodeAux fuel rest
      | _ => replacementChar :: utf8DecodeAux fuel rest
    else replacementChar :: utf8DecodeAux fuel rest

/-- UTF-8 decoding of a byte run (`bytes.decode("utf-8", errors="replace")`);
on an invalid sequence a U+FFFD is emitted and decoding resumes at the next
byte. -/
def utf8Decode (bs : List Nat) : Str := utf8DecodeAux bs.length bs

/-- Collect a maximal run of `%XX` escape bytes. -/
def collectBytes : Str → List Nat × Str
  | '%' :: c1 :: c2 :: rest =>
    match hexDigit c1, hexDigit c2 with
    | some h1, some h2 =>
      let p := collectBytes rest
      ((h1 * 16 + h2) :: p.1, p.2)
    | _, _ => ([], '%' :: c1 :: c2 :: rest)
  | s => ([], s)

/-- Fueled worker for `unquote`. -/
def unquoteAux : Nat → Str → Str
  | 0, _ => []
  | fuel + 1, s =>
    match s with
    | [] => []
    | '%' :: c1 :: c2 :: rest =>
      match hexDigit c1, hexDigit c2 with
      | some _, some _ =>
        let p := collectBytes ('%' :: c1 :: c2 :: rest)
        utf8Decode p.1 ++ unquoteAux fuel p.2
      | _, _ => '%' :: unquoteAux fuel (c1 :: c2 :: rest)
    | c :: rest => c :: unquoteAux fuel rest

/-- Model of `urllib.parse.unquote`: maximal runs of `%XX` escapes are
decoded as UTF-8 bytes, malformed escapes are kept verbatim. -/
def unquote (s : Str) : Str := unquoteAux s.length s

/-- Model of `_handle_text_content`: recover a link run's destination from the
redirect URL's text after `q=`, or fall back to the run's literal text;
only `KeyError`/`IndexError` are caught. -/
def handle_text_content (content : Json) : Except PyErr Json :=
  match getPath content [chars ("navigationEndpoint"), chars ("urlEndpoint"),
      chars ("url")] with
  | .ok linkRedirect =>
    match linkRedirect with
    | .str s =>
      match findQCapture s with
      | some cap => .ok (.str (unquote cap))
      | none => .ok (.str s)
    | _ => .error .typeError
  | .error .keyError => content.getD (chars ("text")) (.str [])
  | .error .indexError => content.getD (chars ("text")) (.str [])
  | .error e => .error e

/-- Python `"".join(strings)`: `TypeError` unless every element is a string. -/
def joinStrs : List Json → Except PyErr Str
  | [] => .ok []
  | .str s :: rest => (joinStrs rest).map (s ++ ·)
  | _ :: _ => .error .typeError

/-- One `try` body of `_get_text_content`: look up `post[key]["runs"]`, apply
`_handle_text_content` to each run and join. -/
def textAttempt (post : Json) (key : Str) : Except PyErr Str := do
  let runsVal ← getPath post [key, chars ("runs")]
  let items ← pyIter runsVal
  let parts ← items.mapM handle_text_content
  joinStrs parts

/-- Model of `_get_text_content`: try `contentText` then `content`; `KeyError` falls
through, both missing yields `None`. -/
def get_text_content (post : Json) : Except PyErr (Option Str) :=
  match textAttempt post (chars ("contentText")) with
  | .ok s => .ok (some s)
  | .error .keyError =>
    match textAttempt post (chars ("content")) with
    | .ok s => .ok (some s)
    | .error .keyError => .ok none
    | .error e => .error e
  | .error e => .error e

/-! ### Poll extractor -/

/-- Round half to even (the rounding mode of Python's `round`). -/
def roundHalfEven (q : ℚ) : ℤ :=
  let f := ⌊q⌋
  if q - (f : ℚ) < 1 / 2 then f
  else if 1 / 2 < q - (f : ℚ) then f + 1
  else if f % 2 = 0 then f else f + 1

/-- Python `round(x, 1)`, idealized on exact rationals. -/
def pyRound1 (q : ℚ) : ℚ := (roundHalfEven (q * 10) : ℚ) / 10

/-- Python's `str` of the float `round(x, 1)`: one decimal digit.  (Exact for
the non-integral JSON vote ratios that arise here; a JSON integer would be
rendered by Python without the `.0`.) -/
def fmtFloat1 (p : ℚ) : Str :=
  let k : ℤ := roundHalfEven (p * 10)
  (if k < 0 then ['-'] else []) ++
    Nat.toDigits 10 (k.natAbs / 10) ++ ['.'] ++ Nat.toDigits 10 (k.natAbs % 10)

/-- Python `vote_ratio > 0` (`TypeError` for non-numbers; booleans are ints). -/
def pyGtZero : Json → Except PyErr Bool
  | .num q => .ok (decide (0 < q))
  | .bool b => .ok b
  | _ => .error .typeError

/-- The numeric value of a vote ratio already known to compare `> 0`. -/
def ratioVal : Json → ℚ
  | .num q => q
  | .bool true => 1
  | _ => 0

/-- The loop body of `_get_poll_content` for one choice: the display text,
optionally followed by the percentage, always followed by `", "`. -/
def pollChoicePiece (choice : Json) : Except PyErr Str := do
  let t1 ← choice.getD (chars ("text")) (.obj [])
  let runsJ ← t1.getD (chars ("runs")) (.arr [Json.obj []])
  let r0 ← runsJ.getItem0
  let textJ ← r0.getD (chars ("text")) (.str [])
  let ratioJ ← choice.getD (chars ("voteRatio")) (.num 0)
  let gt ← pyGtZero ratioJ
  if gt then
    pure (pyFormat textJ ++ chars (": ") ++
      fmtFloat1 (pyRound1 (ratioVal ratioJ * 100)) ++ chars ("%, "))
  else
    pure (pyFormat textJ ++ chars (", "))

/-- Python `s.rstrip(", ")`: remove all trailing commas and spaces. -/
def rstripCommaSpace (s : Str) : Str :=
  (s.reverse.dropWhile (fun c => c = ',' ∨ c = ' ')).reverse

/-- The `try` body of `_get_poll_content`. -/
def pollBody (post : Json) : Except PyErr (Option Str) := do
  let poll ← getPath post [chars ("backstageAttachment"), chars ("pollRenderer")]
  let choicesJ ← poll.getD (chars ("choices")) (.arr [])
  if choicesJ.truthy then do
    let items ← pyIter choicesJ
    let pieces ← items.mapM pollChoicePiece
    pure (some (rstripCommaSpace (chars ("Poll: ") ++ pieces.flatten)))
  else pure none

/-- Model of `_get_poll_content`: the poll summary string, `None` when the poll
attachment is missing or its choice list is empty; `KeyError` anywhere in the
body is caught. -/
def get_poll_content (post : Json) : Except PyErr (Option Str) :=
  match pollBody post with
  | .ok r => .ok r
  | .error .keyError => .ok none
  | .error e => .error e

/-! ### Record builder and loader -/

/-- The `post_data` dict built by `_parse_post_data` (its keys are fixed, so
it is modelled as a structure). -/
structure PostData where
  post_link : Str
  post_id : Str
  text_content : Str
  video_link : Option Str
  image_links : Option (List Json)
  poll_content : Option Str
  time_of_download : Str
  time_since : Json
deriving Repr

/-- The required-timestamp lookup
`post_json["publishedTimeText"]["runs"][0]["text"]`. -/
def tsLookup (post : Json) : Except PyErr Json := do
  let a ← post.getKey (chars ("publishedTimeText"))
  let b ← a.getKey (chars ("runs"))
  let c ← b.getItem0
  c.getKey (chars ("text"))

/-- Model of `_parse_post_data`: run every extractor (in the dict-literal order of the
source) and then the required timestamp lookup; `nowStamp` stands for the
formatted `datetime.now(UTC)` string. -/
def parse_post_data (selfPostId postUrl nowStamp : Str) (postJson : Json) :
    Except PyErr PostData := do
  let text ← get_text_content postJson
  let video ← get_video_link postJson
  let images ← get_image_links postJson
  let poll ← get_poll_content postJson
  let ts ← tsLookup postJson
  pure {
    post_link := postUrl
    post_id := selfPostId
    text_content := text.getD []   -- `_get_text_content(post_json) or ""`
    video_link := video
    image_links := images
    poll_content := poll
    time_of_download := nowStamp
    time_since := ts }

/-- A `langchain_core` `Document`: page content plus a metadata mapping. -/
structure Document where
  page_content : Str
  metadata : List (Str × Json)
deriving Repr

/-- Python truthiness of an optional string field of `post_data`. -/
def optTruthy : Option Str → Bool
  | none => false
  | some s => ¬ s.isEmpty

/-- Python truthiness of the optional image-link list. -/
def optListTruthy : Option (List Json) → Bool
  | none => false
  | some l => ¬ l.isEmpty

/-- Model of `_create_document`: fixed metadata keys plus the three optional keys,
each added only when its value is truthy. -/
def create_document (selfPostId : Str) (pd : PostData) : Document :=
  { page_content := pd.text_content,
    metadata :=
      [(chars ("source"), Json.str pd.post_link),
       (chars ("post_id"), Json.str selfPostId),
       (chars ("time_since"), pd.time_since),
       (chars ("time_of_download"), Json.str pd.time_of_download)] ++
      (if optTruthy pd.video_link then
        [(chars ("video_link"), Json.str (pd.video_link.getD []))] else []) ++
      (if optListTruthy pd.image_links then
        [(chars ("image_links"), Json.arr (pd.image_links.getD []))] else []) ++
      (if optTruthy pd.poll_content then
        [(chars ("poll_content"), Json.str (pd.poll_content.getD []))] else []) }

/-- Model of `_extract_post_from_html`: decode under the direct-post marker, fall back
to the repost marker only when the first decode returned a falsy object, then
build the record. -/
def extract_post_from_html (selfPostId postUrl nowStamp : Str) (html : Str) :
    Except PyErr PostData := do
  let pj ← extract_json_from_html html (chars ("backstagePostRenderer"))
  let pj2 ← if pj.truthy then pure pj
    else extract_json_from_html html (chars ("sharedPostRenderer"))
  parse_post_data selfPostId postUrl nowStamp pj2

/-- Model of `_load_post` after the fetch: parse the fetched HTML into a single
document. -/
def load_post (selfPostId postUrl nowStamp : Str) (html : Str) :
    Except PyErr (List Document) := do
  let pd ← extract_post_from_html selfPostId postUrl nowStamp html
  pure [create_document selfPostId pd]

/-- Model of `load`: run the per-post pipeline; in permissive mode
(`continue_on_failure`) any error is suppressed (and logged) yielding `[]`,
otherwise it is re-raised unchanged. -/
def load (continueOnFailure : Bool) (selfPostId postUrl nowStamp : Str)
    (html : Str) : Except PyErr (List Document) :=
  match load_post selfPostId postUrl nowStamp html with
  | .ok docs => .ok docs
  | .error e => if continueOnFailure then .ok [] else .error e

/-! ### Helper lemmas -/

theorem occursAt_drop (needle raw : Str) (start b : Nat) (h : start ≤ b) :
    occursAt needle (raw.drop start) (b - start) ↔ occursAt needle raw b := by
  unfold occursAt
  rw [List.drop_drop]
  have hb : start + (b - start) = b := by omega
  rw [hb]

/-! ### Claim theorems -/

/-- Claim C1 (code bug): the spec requires that when the direct-post marker
`backstagePostRenderer` is absent the extraction tries the repost marker
`sharedPostRenderer` before giving up, failing NotFound only when neither
occurs.  The code instead lets the first locator's NotFound error propagate
(the `if not post_json` fallback is reachable only when the first decode
succeeded with a falsy object), so a blob containing only the repost marker
fails NotFound without the repost marker ever being tried. -/
theorem c1_shared_marker_not_tried :
    occursIn (encodedKey (chars ("sharedPostRenderer")))
      (chars ("\"sharedPostRenderer\":\x7b\"a\":1\x7d")) ∧
    ¬ occursIn (encodedKey (chars ("backstagePostRenderer")))
      (chars ("\"sharedPostRenderer\":\x7b\"a\":1\x7d")) ∧
    extract_post_from_html (chars ("p")) (chars ("u")) (chars ("n"))
      (chars ("\"sharedPostRenderer\":\x7b\"a\":1\x7d")) = .error .notFound := by
  refine ⟨⟨0, by decide⟩, (strFind_none_iff _ _).mp (by rfl), by rfl⟩

/-- Claim C2: the JSON locator fails NotFound exactly when the quoted key
(followed by a colon) never occurs in the blob; given the first occurrence of
the key, it fails MalformedJson-category when no `{` follows it, or when
decoding from the first such `{` fails; and on success it returns the single
JSON value decoded from that first `{`, ignoring the trailing text. -/
theorem c2_json_locator (raw key : Str) :
    (extract_json_from_html raw key = .error .notFound ↔
      ¬ occursIn (encodedKey key) raw) ∧
    (∀ i, occursAt (encodedKey key) raw i →
      (∀ j, j < i → ¬ occursAt (encodedKey key) raw j) →
      ((∀ b, i + (encodedKey key).length ≤ b → ¬ occursAt [lbrace] raw b) →
          extract_json_from_html raw key = .error .malformedNoBrace) ∧
      (∀ b, i + (encodedKey key).length ≤ b → occursAt [lbrace] raw b →
        (∀ b', i + (encodedKey key).length ≤ b' → b' < b →
          ¬ occursAt [lbrace] raw b') →
        (rawDecode (raw.drop b) = none →
            extract_json_from_html raw key = .error .malformedJson) ∧
        (∀ v rest, rawDecode (raw.drop b) = some (v, rest) →
            extract_json_from_html raw key = .ok v))) := by
  constructor
  · cases hf : strFind raw (encodedKey key) with
    | none =>
      constructor
      · intro _
        exact (strFind_none_iff _ _).mp hf
      · intro _
        simp [extract_json_from_html, hf]
    | some i =>
      have hocc : occursIn (encodedKey key) raw :=
        ⟨i, ((strFind_some_iff _ _ _).mp hf).1⟩
      constructor
      · intro hres
        exfalso
        cases hc : charFindFrom raw lbrace (i + (encodedKey key).length) with
        | none => simp [extract_json_from_html, hf, hc] at hres
        | some b =>
          cases hd : rawDecode (raw.drop b) with
          | none => simp [extract_json_from_html, hf, hc, hd] at hres
          | some p => simp [extract_json_from_html, hf, hc, hd] at hres
      · intro hno
        exact absurd hocc hno
  · intro i hi hmin
    have hf : strFind raw (encodedKey key) = some i :=
      (strFind_some_iff _ _ _).mpr ⟨hi, fun j hj => hmin j hj⟩
    constructor
    · intro hnob
      have hfind2 : strFind (raw.drop (i + (encodedKey key).length)) [lbrace] = none := by
        rw [strFind_none_iff]
        rintro ⟨j, hj⟩
        refine hnob (j + (i + (encodedKey key).length)) (by omega) ?_
        have := (occursAt_drop [lbrace] raw (i + (encodedKey key).length)
          (j + (i + (encodedKey key).length)) (by omega)).mp
        apply this
        simpa using hj
      have hcf : charFindFrom raw lbrace (i + (encodedKey key).length) = none := by
        unfold charFindFrom
        rw [hfind2]
        rfl
      simp [extract_json_from_html, hf, hcf]
    · intro b hble hocc hminb
      have hfind2 : strFind (raw.drop (i + (encodedKey key).length)) [lbrace] =
          some (b - (i + (encodedKey key).length)) := by
        rw [strFind_some_iff]
        constructor
        · exact (occursAt_drop _ _ _ _ hble).mpr hocc
        · intro j hj hjocc
          have hj2 : occursAt [lbrace] raw (j + (i + (encodedKey key).length)) := by
            have := (occursAt_drop [lbrace] raw (i + (encodedKey key).length)
              (j + (i + (encodedKey key).length)) (by omega)).mp
            apply this
            simpa using hjocc
          exact hminb (j + (i + (encodedKey key).length)) (by omega) (by omega) hj2
      have hcf : charFindFrom raw lbrace (i + (encodedKey key).length) = some b := by
        unfold charFindFrom
        rw [hfind2]
        simp only [Option.map_some']
        congr 1
        omega
      constructor
      · intro hdec
        simp [extract_json_from_html, hf, hcf, hdec]
      · intro v rest hdec
        simp [extract_json_from_html, hf, hcf, hdec]

/-- Witness for C2: the spec's own example (key present, object decoded,
trailing text ignored) and the NotFound case. -/
theorem c2_json_locator_witness :
    extract_json_from_html (chars ("\"markerA\":\x7b\"a\":1\x7d trailing"))
      (chars ("markerA")) = .ok (.obj [(chars ("a"), .num 1)]) ∧
    extract_json_from_html (chars ("nothing")) (chars ("markerA")) =
      .error .notFound := by
  constructor
  · exact ((((c2_json_locator (chars ("\"markerA\":\x7b\"a\":1\x7d trailing"))
      (chars ("markerA"))).2 0 (by decide) (by intro j hj; omega)).2 10 (by decide)
      (by decide) (by
        intro b' h1 h2
        have hlen : (encodedKey (chars ("markerA"))).length = 10 := by decide
        omega)).2
      (.obj [(chars ("a"), .num 1)]) (chars (" trailing")) (by rfl))
  · exact (c2_json_locator (chars ("nothing")) (chars ("markerA"))).1.mpr
      ((strFind_none_iff _ _).mp (by rfl))

/-- Claim C9: in strict mode (the default) `load` returns exactly what the
per-post pipeline returns (the first error propagates unchanged); in
permissive mode a pipeline error yields the empty document list; and any
successful result is either that empty list or the pipeline's complete
single-document output — never an incomplete record. -/
theorem c9_load_policy (pid purl now html : Str) :
    load false pid purl now html = load_post pid purl now html ∧
    (∀ e, load_post pid purl now html = .error e →
      load true pid purl now html = .ok []) ∧
    (∀ (flag : Bool) (docs : List Document),
      load flag pid purl now html = .ok docs →
      docs = [] ∨ ∃ pd, extract_post_from_html pid purl now html = .ok pd ∧
        docs = [create_document pid pd]) := by
  refine ⟨?_, ?_, ?_⟩
  · unfold load
    cases load_post pid purl now html <;> rfl
  · intro e he
    unfold load
    rw [he]
    rfl
  · intro flag docs hdocs
    unfold load at hdocs
    cases hlp : load_post pid purl now html with
    | ok d =>
      rw [hlp] at hdocs
      right
      unfold load_post at hlp
      cases hep : extract_post_from_html pid purl now html with
      | ok pd =>
        rw [hep] at hlp
        have hlp2 : Except.ok (ε := PyErr) [create_document pid pd] = Except.ok d := hlp
        refine ⟨pd, rfl, ?_⟩
        cases hdocs
        cases hlp2
        rfl
      | error e2 =>
        rw [hep] at hlp
        exact absurd ((show Except.error (α := List Document) e2 = Except.ok d from hlp))
          (by intro hc; cases hc)
    | error e =>
      rw [hlp] at hdocs
      cases flag with
      | false => cases hdocs
      | true =>
        left
        cases hdocs
        rfl

/-- Witness for C9: a blob with no marker fails the pipeline; strict mode
propagates the NotFound error and permissive mode yields `[]`. -/
theorem c9_load_policy_witness :
    load false (chars ("p")) (chars ("u")) (chars ("n")) (chars ("x")) =
      .error .notFound ∧
    load true (chars ("p")) (chars ("u")) (chars ("n")) (chars ("x")) = .ok [] := by
  constructor
  · rw [(c9_load_policy (chars ("p")) (chars ("u")) (chars ("n")) (chars ("x"))).1]
    rfl
  · exact (c9_load_policy (chars ("p")) (chars ("u")) (chars ("n"))
      (chars ("x"))).2.1 .notFound (by rfl)

/-! ### C3: the URL validator -/

private theorem getLastD_irrel {α : Type} (l : List α) (d1 d2 : α)
    (h : l ≠ []) : l.getLastD d1 = l.getLastD d2 := by
  cases l with
  | nil => exact absurd rfl h
  | cons x xs => rw [List.getLastD_cons, List.getLastD_cons]

private theorem splitOn_slash_tail (pre seg : Str) :
    ∃ h t, (pre ++ '/' :: seg).splitOn '/' = h :: t ∧ t ≠ [] := by
  induction pre with
  | nil =>
    refine ⟨[], seg.splitOn '/', ?_, List.splitOnP_ne_nil _ _⟩
    simp [List.splitOn, List.splitOnP_cons]
  | cons c pre ih =>
    obtain ⟨h, t, heq, hne⟩ := ih
    by_cases hc : (c == '/') = true
    · refine ⟨[], (pre ++ '/' :: seg).splitOn '/', ?_, ?_⟩
      · simp [List.splitOn, List.splitOnP_cons, hc]
      · rw [heq]
        exact List.cons_ne_nil _ _
    · refine ⟨c :: h, t, ?_, hne⟩
      simp only [List.splitOn, List.cons_append, List.splitOnP_cons, hc, if_false]
      rw [show (pre ++ '/' :: seg).splitOnP (· == '/') =
        (pre ++ '/' :: seg).splitOn '/' from rfl, heq]
      rfl

/-- Python `(pre + "/" + seg).split("/")[-1] == seg` when `seg` is
slash-free. -/
theorem lastSegment_append_slash (pre seg : Str) (hseg : '/' ∉ seg) :
    lastSegment (pre ++ '/' :: seg) = seg := by
  induction pre with
  | nil =>
    unfold lastSegment
    rw [List.nil_append, List.splitOn, List.splitOnP_cons]
    simp only [beq_self_eq_true, if_true]
    rw [List.getLastD_cons]
    rw [show seg.splitOnP (· == '/') = seg.splitOn '/' from rfl]
    rw [List.splitOn, List.splitOnP_eq_single]
    · rfl
    · intro x hx
      simp only [beq_iff_eq]
      intro he
      exact hseg (he ▸ hx)
  | cons c pre ih =>
    unfold lastSegment at ih ⊢
    rw [List.cons_append, List.splitOn, List.splitOnP_cons]
    by_cases hc : (c == '/') = true
    · simp only [hc, if_true]
      rw [List.getLastD_cons]
      exact ih
    · obtain ⟨h, t, heq, hne⟩ := splitOn_slash_tail pre seg
      rw [if_neg hc]
      rw [show (pre ++ '/' :: seg).splitOnP (· == '/') =
        (pre ++ '/' :: seg).splitOn '/' from rfl, heq]
      rw [heq] at ih
      rw [List.modifyHead_cons]
      rw [List.getLastD_cons] at ih ⊢
      rw [getLastD_irrel t (c :: h) h hne]
      exact ih

/-- Claim C3 (counterexample): a URL whose path continues after `/post/<id>`
makes the validator return something other than `<id>` (here the empty last
segment); moreover a URL with an unbracketed `[` in the authority, and a URL
whose bracketed host is neither a valid IPv6 address nor a valid IPvFuture
literal, each fail inside the URL parser with an error outside the three
claimed categories. -/
theorem c3_counterexample :
    urlparse (chars ("https://www.youtube.com/post/abc/")) =
      .ok { scheme := chars ("https"), netloc := chars ("www.youtube.com"),
            path := chars ("/post/abc/") } ∧
    parse_community_post_url (chars ("https://www.youtube.com/post/abc/")) =
      .ok [] ∧
    ([] : Str) ≠ chars ("abc") ∧
    parse_community_post_url (chars ("http://[x/post/abc")) =
      .error .invalidIPv6 ∧
    (PyErr.invalidIPv6 ≠ .invalidScheme ∧ PyErr.invalidIPv6 ≠ .invalidNetloc ∧
      PyErr.invalidIPv6 ≠ .invalidPath) ∧
    parse_community_post_url (chars ("http://[abc]/post/x")) =
      .error .invalidBracketedHost ∧
    (PyErr.invalidBracketedHost ≠ .invalidScheme ∧
      PyErr.invalidBracketedHost ≠ .invalidNetloc ∧
      PyErr.invalidBracketedHost ≠ .invalidPath) := by
  exact ⟨by rfl, by rfl, by decide, by rfl, ⟨by decide, by decide, by decide⟩,
    by rfl, by decide, by decide, by decide⟩

/-- Claim C3 (amended): for every all-ASCII URL the parser accepts, the
validator returns the last `/`-separated segment of the path when scheme,
host and the `/post/` check pass (so exactly `<id>` when the path ends in
`/post/<id>` with slash-free `<id>`), and fails with the correspondingly
categorized error when the scheme, host or path check fails; a URL the
parser itself rejects — unbalanced square brackets in the authority, or a
bracketed host that is neither a valid IPv6 address nor a valid IPvFuture
literal — propagates that uncategorized error.  The all-ASCII hypothesis
marks the fragment on which the model is faithful: CPython's additional
NFKC normalization check on the authority is a no-op for ASCII netlocs and
is not modelled for non-ASCII ones. -/
theorem c3_url_validator_amended (url : Str)
    (_hascii : ∀ c ∈ url, c.toNat ≤ 127) :
    (∀ p, urlparse url = .ok p →
      (p.scheme ∈ allowedSchemes → p.netloc ∈ allowedNetlocs →
        occursIn (chars ("/post/")) p.path →
        parse_community_post_url url = .ok (lastSegment p.path) ∧
        (∀ pre seg, p.path = pre ++ '/' :: seg → '/' ∉ seg →
          parse_community_post_url url = .ok seg)) ∧
      (p.scheme ∉ allowedSchemes →
        parse_community_post_url url = .error .invalidScheme) ∧
      (p.scheme ∈ allowedSchemes → p.netloc ∉ allowedNetlocs →
        parse_community_post_url url = .error .invalidNetloc) ∧
      (p.scheme ∈ allowedSchemes → p.netloc ∈ allowedNetlocs →
        ¬ occursIn (chars ("/post/")) p.path →
        parse_community_post_url url = .error .invalidPath)) ∧
    (∀ e, urlparse url = .error e →
      parse_community_post_url url = .error e) := by
  constructor
  · intro p hp
    have hbase : parse_community_post_url url =
        (if p.scheme ∈ allowedSchemes then
          if p.netloc ∈ allowedNetlocs then
            if (strFind p.path (chars ("/post/"))).isSome then
              Except.ok (lastSegment p.path)
            else Except.error .invalidPath
          else Except.error .invalidNetloc
        else Except.error .invalidScheme) := by
      unfold parse_community_post_url
      rw [hp]
      rfl
    refine ⟨?_, ?_, ?_, ?_⟩
    · intro h1 h2 h3
      have hfind : (strFind p.path (chars ("/post/"))).isSome = true := by
        cases hsf : strFind p.path (chars ("/post/")) with
        | none => exact absurd h3 ((strFind_none_iff _ _).mp hsf)
        | some i => rfl
      have hres : parse_community_post_url url = .ok (lastSegment p.path) := by
        rw [hbase, if_pos h1, if_pos h2, if_pos hfind]
      refine ⟨hres, ?_⟩
      intro pre seg hpath hseg
      rw [hres, hpath, lastSegment_append_slash pre seg hseg]
    · intro h1
      rw [hbase, if_neg h1]
    · intro h1 h2
      rw [hbase, if_pos h1, if_neg h2]
    · intro h1 h2 h3
      have hfind : (strFind p.path (chars ("/post/"))).isSome = false := by
        cases hsf : strFind p.path (chars ("/post/")) with
        | none => rfl
        | some i =>
          exact absurd ⟨i, ((strFind_some_iff _ _ _).mp hsf).1⟩ h3
      rw [hbase, if_pos h1, if_pos h2, if_neg (by rw [hfind]; exact Bool.false_ne_true)]
  · intro e he
    unfold parse_community_post_url
    rw [he]
    rfl

/-- Witness for C3 (amended): a canonical valid post URL returns its id; a
`ftp` URL fails with the scheme-categorized error. -/
theorem c3_url_validator_amended_witness :
    parse_community_post_url (chars ("https://www.youtube.com/post/PostID123")) =
      .ok (chars ("PostID123")) ∧
    parse_community_post_url (chars ("ftp://youtube.com/post/PostID")) =
      .error .invalidScheme := by
  constructor
  · exact ((((c3_url_validator_amended
      (chars ("https://www.youtube.com/post/PostID123")) (by decide)).1
      { scheme := chars ("https"), netloc := chars ("www.youtube.com"),
        path := chars ("/post/PostID123") } (by rfl)).1
      (by decide) (by decide) ⟨0, by decide⟩).2
      (chars ("/post")) (chars ("PostID123")) (by decide) (by decide))
  · exact (((c3_url_validator_amended
      (chars ("ftp://youtube.com/post/PostID")) (by decide)).1
      { scheme := chars ("ftp"), netloc := chars ("youtube.com"),
        path := chars ("/post/PostID") } (by rfl)).2.1 (by decide))

/-! ### C5: the record builder -/

theorem parse_post_data_eq_ok (pid purl now : Str) (post : Json)
    (t : Option Str) (v : Option Str) (im : Option (List Json)) (pl : Option Str)
    (ts : Json)
    (h1 : get_text_content post = .ok t) (h2 : get_video_link post = .ok v)
    (h3 : get_image_links post = .ok im) (h4 : get_poll_content post = .ok pl)
    (h5 : tsLookup post = .ok ts) :
    parse_post_data pid purl now post = .ok
      { post_link := purl, post_id := pid, text_content := t.getD [],
        video_link := v, image_links := im, poll_content := pl,
        time_of_download := now, time_since := ts } := by
  unfold parse_post_data
  rw [h1, h2, h3, h4, h5]
  rfl

theorem parse_post_data_ts_error (pid purl now : Str) (post : Json)
    (t : Option Str) (v : Option Str) (im : Option (List Json)) (pl : Option Str)
    (e : PyErr)
    (h1 : get_text_content post = .ok t) (h2 : get_video_link post = .ok v)
    (h3 : get_image_links post = .ok im) (h4 : get_poll_content post = .ok pl)
    (h5 : tsLookup post = .error e) :
    parse_post_data pid purl now post = .error e := by
  unfold parse_post_data
  rw [h1, h2, h3, h4, h5]
  rfl

theorem parse_post_data_ok_components (pid purl now : Str) (post : Json)
    (pd : PostData) (h : parse_post_data pid purl now post = .ok pd) :
    get_video_link post = .ok pd.video_link ∧
    get_image_links post = .ok pd.image_links ∧
    get_poll_content post = .ok pd.poll_content ∧
    tsLookup post = .ok pd.time_since ∧
    ∃ t, get_text_content post = .ok t ∧ pd.text_content = t.getD [] := by
  unfold parse_post_data at h
  cases h1 : get_text_content post with
  | error e =>
    rw [h1] at h
    exact Except.noConfusion (show (Except.error e : Except PyErr PostData) = .ok pd from h)
  | ok t =>
    rw [h1] at h
    cases h2 : get_video_link post with
    | error e =>
      rw [h2] at h
      exact Except.noConfusion (show (Except.error e : Except PyErr PostData) = .ok pd from h)
    | ok v =>
      rw [h2] at h
      cases h3 : get_image_links post with
      | error e =>
        rw [h3] at h
        exact Except.noConfusion (show (Except.error e : Except PyErr PostData) = .ok pd from h)
      | ok im =>
        rw [h3] at h
        cases h4 : get_poll_content post with
        | error e =>
          rw [h4] at h
          exact Except.noConfusion (show (Except.error e : Except PyErr PostData) = .ok pd from h)
        | ok pl =>
          rw [h4] at h
          cases h5 : tsLookup post with
          | error e =>
            rw [h5] at h
            exact Except.noConfusion (show (Except.error e : Except PyErr PostData) = .ok pd from h)
          | ok ts =>
            rw [h5] at h
            have h6 : Except.ok (ε := PyErr)
                ({ post_link := purl, post_id := pid, text_content := t.getD [],
                   video_link := v, image_links := im, poll_content := pl,
                   time_of_download := now, time_since := ts } : PostData) =
                .ok pd := h
            cases h6
            exact ⟨rfl, rfl, rfl, rfl, t, rfl, rfl⟩

theorem create_document_lookup_none (pid : Str) (pd : PostData) :
    (pd.video_link = none →
      (create_document pid pd).metadata.lookup (chars ("video_link")) = none) ∧
    (pd.image_links = none →
      (create_document pid pd).metadata.lookup (chars ("image_links")) = none) ∧
    (pd.poll_content = none →
      (create_document pid pd).metadata.lookup (chars ("poll_content")) = none) := by
  unfold create_document
  refine ⟨?_, ?_, ?_⟩ <;> intro h <;> rw [h] <;>
    [(cases h2 : optListTruthy pd.image_links <;> cases h3 : optTruthy pd.poll_content);
     (cases h2 : optTruthy pd.video_link <;> cases h3 : optTruthy pd.poll_content);
     (cases h2 : optTruthy pd.video_link <;> cases h3 : optListTruthy pd.image_links)] <;>
    rfl

/-- Claim C5: the record builder fails (with the error raised by the fixed
timestamp key path) when `publishedTimeText -> runs -> first run -> text` is
absent, even when every other field extractor succeeds; and when the video,
image, or poll extraction produced an absent value, the corresponding
metadata key is entirely missing from the output document. -/
theorem c5_required_timestamp_and_omission (pid purl now : Str) (post : Json) :
    (∀ e, tsLookup post = .error e →
      ∀ t v im pl, get_text_content post = .ok t → get_video_link post = .ok v →
        get_image_links post = .ok im → get_poll_content post = .ok pl →
        parse_post_data pid purl now post = .error e) ∧
    (∀ pd, parse_post_data pid purl now post = .ok pd →
      (get_video_link post = .ok none →
        (create_document pid pd).metadata.lookup (chars ("video_link")) = none) ∧
      (get_image_links post = .ok none →
        (create_document pid pd).metadata.lookup (chars ("image_links")) = none) ∧
      (get_poll_content post = .ok none →
        (create_document pid pd).metadata.lookup (chars ("poll_content")) = none)) := by
  constructor
  · intro e he t v im pl h1 h2 h3 h4
    exact parse_post_data_ts_error pid purl now post t v im pl e h1 h2 h3 h4 he
  · intro pd hpd
    obtain ⟨hv, him, hpl, _, _⟩ := parse_post_data_ok_components pid purl now post pd hpd
    refine ⟨?_, ?_, ?_⟩
    · intro h0
      rw [h0] at hv
      have : none = pd.video_link := Except.ok.inj hv
      exact (create_document_lookup_none pid pd).1 this.symm
    · intro h0
      rw [h0] at him
      have : none = pd.image_links := Except.ok.inj him
      exact (create_document_lookup_none pid pd).2.1 this.symm
    · intro h0
      rw [h0] at hpl
      have : none = pd.poll_content := Except.ok.inj hpl
      exact (create_document_lookup_none pid pd).2.2 this.symm

/-- Witness for C5: a fully empty object fails on the timestamp path while
all extractors return absent values; a post carrying only the timestamp
yields a document whose metadata carries none of the three optional keys. -/
theorem c5_required_timestamp_and_omission_witness :
    parse_post_data (chars ("p")) (chars ("u")) (chars ("n")) (.obj []) =
      .error .keyError ∧
    ((create_document (chars ("p"))
      { post_link := chars ("u"), post_id := chars ("p"), text_content := [],
        video_link := none, image_links := none, poll_content := none,
        time_of_download := chars ("n"),
        time_since := .str (chars ("2h")) }).metadata.lookup
        (chars ("video_link")) = none ∧
     (create_document (chars ("p"))
      { post_link := chars ("u"), post_id := chars ("p"), text_content := [],
        video_link := none, image_links := none, poll_content := none,
        time_of_download := chars ("n"),
        time_since := .str (chars ("2h")) }).metadata.lookup
        (chars ("image_links")) = none ∧
     (create_document (chars ("p"))
      { post_link := chars ("u"), post_id := chars ("p"), text_content := [],
        video_link := none, image_links := none, poll_content := none,
        time_of_download := chars ("n"),
        time_since := .str (chars ("2h")) }).metadata.lookup
        (chars ("poll_content")) = none) := by
  constructor
  · exact (c5_required_timestamp_and_omission (chars ("p")) (chars ("u"))
      (chars ("n")) (.obj [])).1 .keyError (by rfl) none none none none
      (by rfl) (by rfl) (by rfl) (by rfl)
  · have hpost : parse_post_data (chars ("p")) (chars ("u")) (chars ("n"))
        (.obj [(chars ("publishedTimeText"), Json.obj [(chars ("runs"),
          Json.arr [Json.obj [(chars ("text"), Json.str (chars ("2h")))]])])]) =
        .ok { post_link := chars ("u"), post_id := chars ("p"),
              text_content := [], video_link := none, image_links := none,
              poll_content := none, time_of_download := chars ("n"),
              time_since := .str (chars ("2h")) } := by rfl
    have h := (c5_required_timestamp_and_omission (chars ("p")) (chars ("u"))
      (chars ("n")) (.obj [(chars ("publishedTimeText"), Json.obj [(chars ("runs"),
        Json.arr [Json.obj [(chars ("text"), Json.str (chars ("2h")))]])])])).2
      _ hpost
    exact ⟨h.1 (by rfl), h.2.1 (by rfl), h.2.2 (by rfl)⟩

/-! ### C4: graceful handling of absent sub-structures -/

private theorem getPath_cons_keyError (kvs : List (Str × Json)) (k : Str)
    (ks : List Str) (h : kvs.lookup k = none) :
    getPath (.obj kvs) (k :: ks) = .error .keyError := by
  unfold getPath
  rw [List.foldlM_cons]
  rw [show Json.getKey (.obj kvs) k = .error .keyError from by
    simp [Json.getKey, h]]
  rfl

/-- Claim C4 (counterexample): present-but-reshaped sub-structures do raise —
an image attachment whose thumbnail sequence is empty raises `IndexError`
(only `KeyError` is caught), and an attachment bound to a non-mapping value
raises `TypeError` in both the image and the video extractor. -/
theorem c4_counterexample :
    get_image_links (Json.obj [(chars ("backstageAttachment"), Json.obj
      [(chars ("backstageImageRenderer"), Json.obj
        [(chars ("image"), Json.obj [(chars ("thumbnails"), Json.arr [])])])])]) =
      .error .indexError ∧
    get_image_links (Json.obj [(chars ("backstageAttachment"),
      Json.str (chars ("x")))]) = .error .typeError ∧
    get_video_link (Json.obj [(chars ("backstageAttachment"),
      Json.str (chars ("x")))]) = .error .typeError := by
  exact ⟨by rfl, by rfl, by rfl⟩

/-- Claim C4 (amended): every field extractor returns an absent value, rather
than raising, when its optional sub-structure is entirely missing (an absent
key), and no extractor ever lets a `KeyError` escape; but sub-structures
that are present with an unexpected shape can raise other errors (see the
counterexample), and the missing required timestamp remains a hard failure. -/
theorem c4_missing_substructures_amended (kvs : List (Str × Json)) :
    (kvs.lookup (chars ("backstageAttachment")) = none →
      get_video_link (.obj kvs) = .ok none ∧
      get_image_links (.obj kvs) = .ok none ∧
      get_poll_content (.obj kvs) = .ok none) ∧
    (kvs.lookup (chars ("contentText")) = none →
      kvs.lookup (chars ("content")) = none →
      get_text_content (.obj kvs) = .ok none) ∧
    (∀ post : Json,
      get_video_link post ≠ .error .keyError ∧
      get_image_links post ≠ .error .keyError ∧
      get_text_content post ≠ .error .keyError ∧
      get_poll_content post ≠ .error .keyError) := by
  refine ⟨?_, ?_, ?_⟩
  · intro h
    have hv : get_video_link (.obj kvs) = .ok none := by
      unfold get_video_link
      rw [getPath_cons_keyError kvs _ _ h]
    have hs : singleImageLookup (.obj kvs) = .error .keyError := by
      unfold singleImageLookup
      rw [getPath_cons_keyError kvs _ _ h]
      rfl
    have hm : multiImageLookup (.obj kvs) = .error .keyError := by
      unfold multiImageLookup
      rw [getPath_cons_keyError kvs _ _ h]
      rfl
    have hi : get_image_links (.obj kvs) = .ok none := by
      unfold get_image_links
      rw [hs, hm]
    have hp : get_poll_content (.obj kvs) = .ok none := by
      have hb : pollBody (.obj kvs) = .error .keyError := by
        unfold pollBody
        rw [getPath_cons_keyError kvs _ _ h]
        rfl
      unfold get_poll_content
      rw [hb]
    exact ⟨hv, hi, hp⟩
  · intro h1 h2
    have ha : textAttempt (.obj kvs) (chars ("contentText")) = .error .keyError := by
      unfold textAttempt
      rw [getPath_cons_keyError kvs _ _ h1]
      rfl
    have hb : textAttempt (.obj kvs) (chars ("content")) = .error .keyError := by
      unfold textAttempt
      rw [getPath_cons_keyError kvs _ _ h2]
      rfl
    unfold get_text_content
    rw [ha, hb]
  · intro post
    refine ⟨?_, ?_, ?_, ?_⟩
    · cases hg : getPath post [chars ("backstageAttachment"),
          chars ("videoRenderer"), chars ("videoId")] with
      | ok v => simp [get_video_link, hg]
      | error e => cases e <;> simp [get_video_link, hg]
    · cases hg : singleImageLookup post with
      | ok v => simp [get_image_links, hg]
      | error e =>
        cases e <;> simp [get_image_links, hg]
        cases hm : multiImageLookup post with
        | ok ls => cases ls <;> simp [hm]
        | error e2 => cases e2 <;> simp [hm]
    · cases hg : textAttempt post (chars ("contentText")) with
      | ok v => simp [get_text_content, hg]
      | error e =>
        cases e <;> simp [get_text_content, hg]
        cases hm : textAttempt post (chars ("content")) with
        | ok v => simp [hm]
        | error e2 => cases e2 <;> simp [hm]
    · cases hg : pollBody post with
      | ok v => simp [get_poll_content, hg]
      | error e => cases e <;> simp [get_poll_content, hg]

/-- Witness for C4 (amended): the empty object has every optional
sub-structure absent, and every extractor returns an absent value on it. -/
theorem c4_missing_substructures_amended_witness :
    get_video_link (.obj []) = .ok none ∧
    get_image_links (.obj []) = .ok none ∧
    get_poll_content (.obj []) = .ok none ∧
    get_text_content (.obj []) = .ok none ∧
    get_video_link (.obj []) ≠ .error .keyError := by
  have h1 := (c4_missing_substructures_amended []).1 (by rfl)
  have h2 := (c4_missing_substructures_amended []).2.1 (by rfl) (by rfl)
  have h3 := ((c4_missing_substructures_amended []).2.2 (.obj [])).1
  exact ⟨h1.1, h1.2.1, h1.2.2, h2, h3⟩

/-! ### C8: image links -/

/-- A thumbnail object carrying only a URL. -/
def mkThumb (u : Str) : Json := .obj [(chars ("url"), .str u)]

/-- The `backstageImageRenderer` entry holding a thumbnail sequence. -/
def mkSinglePair (us : List Str) : Str × Json :=
  (chars ("backstageImageRenderer"), .obj [(chars ("image"),
    .obj [(chars ("thumbnails"), .arr (us.map mkThumb))])])

/-- The `postMultiImageRenderer` entry holding a sequence of images. -/
def mkMultiPair (uss : List (List Str)) : Str × Json :=
  (chars ("postMultiImageRenderer"), .obj [(chars ("images"),
    .arr (uss.map fun us => Json.obj [mkSinglePair us]))])

/-- A post whose `backstageAttachment` holds the given entries. -/
def attachPost (kvs : List (Str × Json)) : Json :=
  .obj [(chars ("backstageAttachment"), .obj kvs)]

private theorem getLast?_eq_getLastD {α : Type} (l : List α) (d : α)
    (h : l ≠ []) : l.getLast? = some (l.getLastD d) := by
  cases hg : l.getLast? with
  | none => exact absurd (List.getLast?_eq_none_iff.mp hg) h
  | some a => rw [List.getLastD_eq_getLast?, hg]; rfl

private theorem singleImageLookup_mkSingle (us : List Str) (ul : Str)
    (rest : List (Str × Json)) (hlast : us.getLast? = some ul) :
    singleImageLookup (attachPost (mkSinglePair us :: rest)) = .ok (.str ul) := by
  have h0 : singleImageLookup (attachPost (mkSinglePair us :: rest)) =
      (Json.getLastItem (.arr (us.map mkThumb))) >>=
        (fun last => last.getKey (chars ("url"))) := rfl
  rw [h0]
  have h2 : (us.map mkThumb).getLast? = some (mkThumb ul) := by
    rw [List.getLast?_map, hlast]
    rfl
  have h3 : Json.getLastItem (.arr (us.map mkThumb)) = .ok (mkThumb ul) := by
    simp [Json.getLastItem, h2]
  rw [h3]
  rfl

private theorem imageStep_mkSingle (us : List Str) (hne : us ≠ []) :
    imageStep (Json.obj [mkSinglePair us]) = .ok (.str (us.getLastD [])) := by
  have h0 : imageStep (Json.obj [mkSinglePair us]) =
      (Json.getLastItem (.arr (us.map mkThumb))) >>=
        (fun last => last.getKey (chars ("url"))) := rfl
  rw [h0]
  have h2 : (us.map mkThumb).getLast? = some (mkThumb (us.getLastD [])) := by
    rw [List.getLast?_map, getLast?_eq_getLastD us [] hne]
    rfl
  have h3 : Json.getLastItem (.arr (us.map mkThumb)) =
      .ok (mkThumb (us.getLastD [])) := by
    simp [Json.getLastItem, h2]
  rw [h3]
  rfl

private theorem mapM_imageStep (uss : List (List Str))
    (h : ∀ us ∈ uss, us ≠ []) :
    (uss.map fun us => Json.obj [mkSinglePair us]).mapM imageStep =
      .ok (uss.map fun us => Json.str (us.getLastD [])) := by
  induction uss with
  | nil => rfl
  | cons us rest ih =>
    rw [List.map_cons, List.mapM_cons,
      imageStep_mkSingle us (h us (List.mem_cons_self us rest)),
      ih (fun x hx => h x (List.mem_cons_of_mem us hx)), List.map_cons]
    rfl

/-- Claim C8: `imageLinks`, when present, is never empty; the single-image
path takes precedence (its last thumbnail wins even when a multi-image entry
is also present); the multi-image path takes the last thumbnail of each image
in original order; and when neither path yields a URL (empty multi-image
list, or both renderer keys absent) the result is absent. -/
theorem c8_image_links (post : Json) :
    (∀ l, get_image_links post = .ok (some l) → l ≠ []) ∧
    (∀ us ul rest, us.getLast? = some ul →
      get_image_links (attachPost (mkSinglePair us :: rest)) =
        .ok (some [.str ul])) ∧
    (∀ uss, uss ≠ [] → (∀ us ∈ uss, us ≠ []) →
      get_image_links (attachPost [mkMultiPair uss]) =
        .ok (some (uss.map fun us => Json.str (us.getLastD [])))) ∧
    get_image_links (attachPost [mkMultiPair []]) = .ok none ∧
    (∀ kvs : List (Str × Json),
      kvs.lookup (chars ("backstageImageRenderer")) = none →
      kvs.lookup (chars ("postMultiImageRenderer")) = none →
      get_image_links (attachPost kvs) = .ok none) := by
  refine ⟨?_, ?_, ?_, ?_, ?_⟩
  · intro l hl
    unfold get_image_links at hl
    cases hs : singleImageLookup post with
    | ok v =>
      rw [hs] at hl
      have h2 : some [v] = some l := Except.ok.inj hl
      cases h2
      exact List.cons_ne_nil _ _
    | error e =>
      rw [hs] at hl
      cases e <;> simp at hl
      case keyError =>
        cases hm : multiImageLookup post with
        | ok ls =>
          rw [hm] at hl
          cases ls with
          | nil => simp at hl
          | cons a as =>
            simp at hl
            rw [← hl]
            exact List.cons_ne_nil _ _
        | error e2 =>
          rw [hm] at hl
          cases e2 <;> simp at hl
  · intro us ul rest hlast
    unfold get_image_links
    rw [singleImageLookup_mkSingle us ul rest hlast]
  · intro uss hne h
    have hs : singleImageLookup (attachPost [mkMultiPair uss]) =
        .error .keyError := rfl
    have hm : multiImageLookup (attachPost [mkMultiPair uss]) =
        .ok (uss.map fun us => Json.str (us.getLastD [])) := by
      have h0 : multiImageLookup (attachPost [mkMultiPair uss]) =
          (uss.map fun us => Json.obj [mkSinglePair us]).mapM imageStep := rfl
      rw [h0, mapM_imageStep uss h]
    unfold get_image_links
    rw [hs, hm]
    have hie : (uss.map fun us => Json.str (us.getLastD [])).isEmpty = false := by
      cases uss with
      | nil => exact absurd rfl hne
      | cons a as => rfl
    simp [hie]
    exact hne
  · rfl
  · intro kvs h1 h2
    have hp : getPath (attachPost kvs) [chars ("backstageAttachment"),
        chars ("backstageImageRenderer"), chars ("image"),
        chars ("thumbnails")] = .error .keyError := by
      have h0 : getPath (attachPost kvs) [chars ("backstageAttachment"),
          chars ("backstageImageRenderer"), chars ("image"),
          chars ("thumbnails")] =
          getPath (.obj kvs) [chars ("backstageImageRenderer"),
            chars ("image"), chars ("thumbnails")] := rfl
      rw [h0, getPath_cons_keyError kvs _ _ h1]
    have hpm : getPath (attachPost kvs) [chars ("backstageAttachment"),
        chars ("postMultiImageRenderer"), chars ("images")] =
        .error .keyError := by
      have h0 : getPath (attachPost kvs) [chars ("backstageAttachment"),
          chars ("postMultiImageRenderer"), chars ("images")] =
          getPath (.obj kvs) [chars ("postMultiImageRenderer"),
            chars ("images")] := rfl
      rw [h0, getPath_cons_keyError kvs _ _ h2]
    have hs : singleImageLookup (attachPost kvs) = .error .keyError := by
      unfold singleImageLookup
      rw [hp]
      rfl
    have hm : multiImageLookup (attachPost kvs) = .error .keyError := by
      unfold multiImageLookup
      rw [hpm]
      rfl
    unfold get_image_links
    rw [hs, hm]

/-- Witness for C8: the spec's two examples — a single-image attachment with
thumbnails `[low, mid, high]` yields exactly `[high]` (also when a
multi-image entry is present), and a two-image attachment with `[l1, h1]`,
`[l2, h2]` yields `[h1, h2]` in order. -/
theorem c8_image_links_witness :
    get_image_links (attachPost [mkSinglePair [chars ("low"), chars ("mid"),
      chars ("high")], mkMultiPair [[chars ("l1")]]]) =
      .ok (some [.str (chars ("high"))]) ∧
    get_image_links (attachPost [mkMultiPair [[chars ("l1"), chars ("h1")],
      [chars ("l2"), chars ("h2")]]]) =
      .ok (some [.str (chars ("h1")), .str (chars ("h2"))]) := by
  constructor
  · exact (c8_image_links (attachPost [mkSinglePair [chars ("low"),
      chars ("mid"), chars ("high")], mkMultiPair [[chars ("l1")]]])).2.1
      [chars ("low"), chars ("mid"), chars ("high")] (chars ("high"))
      [mkMultiPair [[chars ("l1")]]] (by rfl)
  · exact ((c8_image_links (attachPost [mkMultiPair [[chars ("l1"),
      chars ("h1")], [chars ("l2"), chars ("h2")]]])).2.2.1
      [[chars ("l1"), chars ("h1")], [chars ("l2"), chars ("h2")]]
      (by intro hc; cases hc) (by
        intro us hus
        simp only [List.mem_cons, List.not_mem_nil, or_false] at hus
        rcases hus with h | h <;> (rw [h]; intro hc; cases hc)))

/-! ### C10 and C7: link-run destinations and text content -/

/-- A run's JSON encoding as a styled navigation/link run. -/
def mkLinkRun (u : Str) : Json :=
  .obj [(chars ("navigationEndpoint"), .obj [(chars ("urlEndpoint"),
    .obj [(chars ("url"), .str u)])])]

/-- A run's JSON encoding as a plain text run. -/
def mkTextRun (t : Str) : Json := .obj [(chars ("text"), .str t)]

/-- A regex match can start after position `i`: the two characters at `i`
are `q=` and at least one non-newline character follows them. -/
def qHeadB : Str → Bool
  | a :: b :: c :: _ => a = 'q' && b = '=' && c ≠ '\n'
  | _ => false

/-- Predicate `qAt s i`: the capture of `(?<=q=)(.+)` can start at position `i + 2`. -/
def qAt (s : Str) (i : Nat) : Prop := qHeadB (s.drop i) = true

instance (s : Str) (i : Nat) : Decidable (qAt s i) := by
  unfold qAt
  infer_instance

private theorem qAt_zero (s : Str) : qAt s 0 ↔ qHeadB s = true := by
  simp [qAt]

private theorem qAt_succ (a : Char) (t : Str) (j : Nat) :
    qAt (a :: t) (j + 1) ↔ qAt t j := by
  simp [qAt, List.drop_succ_cons]

private theorem findQCapture_cons (a : Char) (t : Str) :
    findQCapture (a :: t) =
      if qHeadB (a :: t) then some ((t.drop 1).takeWhile (fun x => x ≠ '\n'))
      else findQCapture t := by
  cases t with
  | nil => rfl
  | cons b t2 =>
    cases t2 with
    | nil => rfl
    | cons c r => rfl

theorem findQCapture_none_iff (s : Str) :
    findQCapture s = none ↔ ∀ i, ¬ qAt s i := by
  induction s with
  | nil =>
    simp only [findQCapture, true_iff]
    intro i
    simp [qAt, qHeadB]
  | cons a t ih =>
    rw [findQCapture_cons]
    by_cases hq : qHeadB (a :: t) = true
    · rw [if_pos hq]
      constructor
      · intro hc
        exact Option.noConfusion hc
      · intro h
        exact absurd ((qAt_zero (a :: t)).mpr hq) (h 0)
    · rw [if_neg hq, ih]
      constructor
      · intro h i
        cases i with
        | zero =>
          rw [qAt_zero]
          exact hq
        | succ j =>
          rw [qAt_succ]
          exact h j
      · intro h j
        have h2 := h (j + 1)
        rwa [qAt_succ] at h2

theorem findQCapture_first (s : Str) (i : Nat) (hi : qAt s i)
    (hmin : ∀ j, j < i → ¬ qAt s j) :
    findQCapture s =
      some ((s.drop (i + 2)).takeWhile (fun c => c ≠ '\n')) := by
  induction s generalizing i with
  | nil => exact absurd hi (by simp [qAt, qHeadB])
  | cons a t ih =>
    rw [findQCapture_cons]
    by_cases hq : qHeadB (a :: t) = true
    · have hi0 : i = 0 := by
        by_contra hne
        exact hmin 0 (Nat.pos_of_ne_zero hne) ((qAt_zero _).mpr hq)
      subst hi0
      rw [if_pos hq]
      rfl
    · rw [if_neg hq]
      cases i with
      | zero => exact absurd ((qAt_zero (a :: t)).mp hi) hq
      | succ j =>
        have hj : qAt t j := (qAt_succ a t j).mp hi
        have hminj : ∀ k, k < j → ¬ qAt t k := by
          intro k hk hc
          exact hmin (k + 1) (by omega) ((qAt_succ a t k).mpr hc)
        rw [ih j hj hminj]
        rfl

/-- Claim C10 (counterexample): the claim says the destination is always the
percent-decoded remainder after the first `q=`; but when nothing follows
`q=` the regex fails to match (`.+` needs one character) and the raw URL is
returned instead of the empty remainder. -/
theorem c10_counterexample :
    handle_text_content (mkLinkRun (chars ("https://r?q="))) =
      .ok (.str (chars ("https://r?q="))) ∧
    occursIn (chars ("q=")) (chars ("https://r?q=")) ∧
    chars ("https://r?q=") ≠ ([] : Str) ∧
    unquote [] = ([] : Str) := by
  exact ⟨by rfl, ⟨10, by decide⟩, by decide, by rfl⟩

/-- Claim C10 (amended): the destination recovered from a link run's
redirect URL is the percent-decoding of the maximal newline-free run after
the first occurrence of `q=` that is immediately followed by at least one
non-newline character (so `q=` may sit inside a longer parameter name such
as `seq=`, and the capture keeps all later `&`-separated parameters); when
no such occurrence exists — including when `q=` only appears at the very
end — the raw redirect URL is returned verbatim. -/
theorem c10_link_destination_amended (u : Str) :
    (∀ i, qAt u i → (∀ j, j < i → ¬ qAt u j) →
      handle_text_content (mkLinkRun u) =
        .ok (.str (unquote ((u.drop (i + 2)).takeWhile (fun c => c ≠ '\n'))))) ∧
    ((∀ i, ¬ qAt u i) → handle_text_content (mkLinkRun u) = .ok (.str u)) := by
  have h0 : handle_text_content (mkLinkRun u) =
      (match findQCapture u with
       | some cap => .ok (.str (unquote cap))
       | none => .ok (.str u)) := rfl
  constructor
  · intro i hi hmin
    rw [h0, findQCapture_first u i hi hmin]
  · intro h
    rw [h0, (findQCapture_none_iff u).mpr h]

/-- Witness for C10 (amended): in `https://r?seq=v&b=2` the first `q=` sits
inside `seq=` and the whole remainder `v&b=2` (with its `&`-parameter) is
recovered. -/
theorem c10_link_destination_amended_witness :
    handle_text_content (mkLinkRun (chars ("https://r?seq=v&b=2"))) =
      .ok (.str (chars ("v&b=2"))) := by
  have h := (c10_link_destination_amended (chars ("https://r?seq=v&b=2"))).1
    12 (by decide) (by decide)
  rw [h]
  rfl

/-- An abstract run: either a navigation/link run or a plain text run. -/
inductive RunSpec where
  | link : Str → RunSpec
  | plain : Str → RunSpec

/-- The JSON encoding of an abstract run. -/
def mkRun : RunSpec → Json
  | .link u => mkLinkRun u
  | .plain t => mkTextRun t

/-- A post holding a run list under the given key. -/
def mkRunsPost (key : Str) (runs : List Json) : Json :=
  .obj [(key, .obj [(chars ("runs"), .arr runs)])]

theorem findQCapture_some_exists (s : Str) (cap : Str)
    (h : findQCapture s = some cap) :
    ∃ i, qAt s i ∧ (∀ j, j < i → ¬ qAt s j) ∧
      cap = (s.drop (i + 2)).takeWhile (fun c => c ≠ '\n') := by
  induction s generalizing cap with
  | nil => exact Option.noConfusion h
  | cons a t ih =>
    rw [findQCapture_cons] at h
    by_cases hq : qHeadB (a :: t) = true
    · rw [if_pos hq] at h
      refine ⟨0, (qAt_zero _).mpr hq, fun j hj => absurd hj (by omega), ?_⟩
      have h2 : (t.drop 1).takeWhile (fun x => x ≠ '\n') = cap := Option.some.inj h
      rw [← h2]
      rfl
    · rw [if_neg hq] at h
      obtain ⟨j, h1, h2, h3⟩ := ih cap h
      refine ⟨j + 1, (qAt_succ a t j).mpr h1, ?_, ?_⟩
      · intro k hk
        cases k with
        | zero =>
          rw [qAt_zero]
          exact hq
        | succ k2 =>
          rw [qAt_succ]
          exact h2 k2 (by omega)
      · rw [h3]
        rfl

private theorem mapM_handle_runs (runs : List RunSpec) (dest : RunSpec → Str)
    (hr : ∀ r ∈ runs, handle_text_content (mkRun r) = .ok (.str (dest r))) :
    (runs.map mkRun).mapM handle_text_content =
      .ok ((runs.map dest).map Json.str) := by
  induction runs with
  | nil => rfl
  | cons r rest ih =>
    rw [List.map_cons, List.mapM_cons, hr r (List.mem_cons_self r rest),
      ih (fun x hx => hr x (List.mem_cons_of_mem r hx)), List.map_cons,
      List.map_cons]
    rfl

private theorem joinStrs_map_str (l : List Str) :
    joinStrs (l.map Json.str) = .ok l.flatten := by
  induction l with
  | nil => rfl
  | cons s rest ih =>
    rw [List.map_cons]
    unfold joinStrs
    rw [ih]
    rfl

private theorem textAttempt_of_lookup (kvs : List (Str × Json)) (key : Str)
    (runs : List RunSpec) (dest : RunSpec → Str)
    (hl : kvs.lookup key = some (.obj [(chars ("runs"), .arr (runs.map mkRun))]))
    (hr : ∀ r ∈ runs, handle_text_content (mkRun r) = .ok (.str (dest r))) :
    textAttempt (.obj kvs) key = .ok ((runs.map dest).flatten) := by
  have hp : getPath (.obj kvs) [key, chars ("runs")] =
      .ok (.arr (runs.map mkRun)) := by
    unfold getPath
    rw [List.foldlM_cons]
    rw [show Json.getKey (.obj kvs) key =
      .ok (.obj [(chars ("runs"), .arr (runs.map mkRun))]) from by
        simp [Json.getKey, hl]]
    rfl
  unfold textAttempt
  rw [hp]
  show ((runs.map mkRun).mapM handle_text_content >>= joinStrs) = _
  rw [mapM_handle_runs runs dest hr]
  show joinStrs ((runs.map dest).map Json.str) = _
  rw [joinStrs_map_str]

/-- Claim C7 (counterexample): a link run redirecting through
`https://r?a=1&q=v&b=2` contributes `v&b=2` — the whole remainder after the
first `q=`, not just the `q` parameter's value `v`. -/
theorem c7_counterexample :
    get_text_content (mkRunsPost (chars ("contentText"))
      [mkLinkRun (chars ("https://r?a=1&q=v&b=2"))]) =
      .ok (some (chars ("v&b=2"))) ∧
    chars ("v&b=2") ≠ chars ("v") := by
  exact ⟨by rfl, by decide⟩

/-- Claim C7 (amended): `textContent` is produced from the run list under
`contentText` first, then the one under `content`; the first present key
wins, and if neither exists the result is absent and the record's text
content is the empty string.  Each run contributes, in order with no
separator: for a link run, the percent-decoded remainder of the redirect URL
after the first `q=` followed by at least one non-newline character (the raw
URL verbatim when there is no such occurrence); for a plain run, its literal
text. -/
theorem c7_text_content_amended (pid purl now : Str) (runs : List RunSpec)
    (dest : RunSpec → Str)
    (hplain : ∀ t, dest (.plain t) = t)
    (hlink : ∀ u i, RunSpec.link u ∈ runs → qAt u i →
      (∀ j, j < i → ¬ qAt u j) →
      dest (.link u) = unquote ((u.drop (i + 2)).takeWhile (fun c => c ≠ '\n')))
    (hlink0 : ∀ u, RunSpec.link u ∈ runs → (∀ i, ¬ qAt u i) →
      dest (.link u) = u) :
    get_text_content (mkRunsPost (chars ("contentText")) (runs.map mkRun)) =
      .ok (some ((runs.map dest).flatten)) ∧
    get_text_content (mkRunsPost (chars ("content")) (runs.map mkRun)) =
      .ok (some ((runs.map dest).flatten)) ∧
    (∀ other, get_text_content (.obj [(chars ("contentText"),
        .obj [(chars ("runs"), .arr (runs.map mkRun))]),
        (chars ("content"), other)]) =
      .ok (some ((runs.map dest).flatten))) ∧
    (∀ kvs : List (Str × Json), kvs.lookup (chars ("contentText")) = none →
      kvs.lookup (chars ("content")) = none →
      get_text_content (.obj kvs) = .ok none ∧
      (∀ pd, parse_post_data pid purl now (.obj kvs) = .ok pd →
        pd.text_content = [])) := by
  have hr : ∀ r ∈ runs, handle_text_content (mkRun r) = .ok (.str (dest r)) := by
    intro r hmem
    cases r with
    | plain t =>
      rw [hplain t]
      rfl
    | link u =>
      have h0 : handle_text_content (mkLinkRun u) =
          (match findQCapture u with
           | some cap => .ok (.str (unquote cap))
           | none => .ok (.str u)) := rfl
      cases hf : findQCapture u with
      | none =>
        show handle_text_content (mkLinkRun u) = _
        rw [h0, hf, hlink0 u hmem ((findQCapture_none_iff u).mp hf)]
      | some cap =>
        obtain ⟨i, h1, h2, h3⟩ := findQCapture_some_exists u cap hf
        show handle_text_content (mkLinkRun u) = _
        rw [h0, hf, hlink u i hmem h1 h2, h3]
  refine ⟨?_, ?_, ?_, ?_⟩
  · have ha := textAttempt_of_lookup
      [(chars ("contentText"), .obj [(chars ("runs"), .arr (runs.map mkRun))])]
      (chars ("contentText")) runs dest (by rfl) hr
    unfold get_text_content
    rw [show mkRunsPost (chars ("contentText")) (runs.map mkRun) =
      Json.obj [(chars ("contentText"),
        .obj [(chars ("runs"), .arr (runs.map mkRun))])] from rfl, ha]
  · have hfail : textAttempt (mkRunsPost (chars ("content")) (runs.map mkRun))
        (chars ("contentText")) = .error .keyError := by
      unfold textAttempt mkRunsPost
      rw [getPath_cons_keyError _ _ _ (by rfl)]
      rfl
    have hb := textAttempt_of_lookup
      [(chars ("content"), .obj [(chars ("runs"), .arr (runs.map mkRun))])]
      (chars ("content")) runs dest (by rfl) hr
    unfold get_text_content
    rw [show mkRunsPost (chars ("content")) (runs.map mkRun) =
      Json.obj [(chars ("content"),
        .obj [(chars ("runs"), .arr (runs.map mkRun))])] from rfl] at hfail ⊢
    rw [hfail, hb]
  · intro other
    have ha := textAttempt_of_lookup
      [(chars ("contentText"), .obj [(chars ("runs"), .arr (runs.map mkRun))]),
       (chars ("content"), other)]
      (chars ("contentText")) runs dest (by rfl) hr
    unfold get_text_content
    rw [ha]
  · intro kvs h1 h2
    have ha : textAttempt (.obj kvs) (chars ("contentText")) =
        .error .keyError := by
      unfold textAttempt
      rw [getPath_cons_keyError kvs _ _ h1]
      rfl
    have hb : textAttempt (.obj kvs) (chars ("content")) =
        .error .keyError := by
      unfold textAttempt
      rw [getPath_cons_keyError kvs _ _ h2]
      rfl
    have hnone : get_text_content (.obj kvs) = .ok none := by
      unfold get_text_content
      rw [ha, hb]
    refine ⟨hnone, ?_⟩
    intro pd hpd
    obtain ⟨_, _, _, _, t, ht, htc⟩ :=
      parse_post_data_ok_components pid purl now (.obj kvs) pd hpd
    rw [hnone] at ht
    have h3 : (none : Option Str) = t := Except.ok.inj ht
    rw [htc, ← h3]
    rfl

/-- Witness for C7 (amended): the spec's example — a link run redirecting
with `q=https%3A%2F%2Fexample.com` followed by the plain run `" hello"`
yields `"https://example.com hello"`. -/
theorem c7_text_content_amended_witness :
    get_text_content (mkRunsPost (chars ("contentText"))
      [mkLinkRun (chars ("https://redirect?q=https%3A%2F%2Fexample.com")),
       mkTextRun (chars (" hello"))]) =
      .ok (some (chars ("https://example.com hello"))) := by
  have h := (c7_text_content_amended (chars ("p")) (chars ("u")) (chars ("n"))
    [.link (chars ("https://redirect?q=https%3A%2F%2Fexample.com")),
     .plain (chars (" hello"))]
    (fun r => match r with
      | .link _ => chars ("https://example.com")
      | .plain t => t)
    (fun t => rfl)
    (by
      intro u i hmem hq hmin
      have hu : u = chars ("https://redirect?q=https%3A%2F%2Fexample.com") := by
        simp at hmem
        exact hmem
      subst hu
      have h17 : qAt (chars ("https://redirect?q=https%3A%2F%2Fexample.com"))
          17 := by decide
      have hlt : ∀ j, j < 17 →
          ¬ qAt (chars ("https://redirect?q=https%3A%2F%2Fexample.com")) j := by
        decide
      have hi17 : i = 17 := by
        rcases Nat.lt_trichotomy i 17 with hc | hc | hc
        · exact absurd hq (hlt i hc)
        · exact hc
        · exact absurd h17 (hmin 17 hc)
      subst hi17
      decide)
    (by
      intro u hmem hno
      have hu : u = chars ("https://redirect?q=https%3A%2F%2Fexample.com") := by
        simp at hmem
        exact hmem
      subst hu
      exact absurd (by decide) (hno 17))).1
  rw [show (mkRunsPost (chars ("contentText"))
      [mkLinkRun (chars ("https://redirect?q=https%3A%2F%2Fexample.com")),
       mkTextRun (chars (" hello"))]) =
    (mkRunsPost (chars ("contentText"))
      (([.link (chars ("https://redirect?q=https%3A%2F%2Fexample.com")),
         .plain (chars (" hello"))] : List RunSpec).map mkRun)) from rfl, h]
  rfl

/-! ### C6: the poll summary -/

/-- The JSON encoding of one poll choice with display text `t` and optional
vote ratio `r`. -/
def mkChoice (t : Str) (r : Option ℚ) : Json :=
  .obj ([(chars ("text"), Json.obj [(chars ("runs"),
      Json.arr [Json.obj [(chars ("text"), Json.str t)]])])] ++
    (match r with
     | some q => [(chars ("voteRatio"), Json.num q)]
     | none => []))

/-- A post whose only attachment is a poll with the given choices. -/
def mkPollPost (cs : List Json) : Json :=
  .obj [(chars ("backstageAttachment"), .obj [(chars ("pollRenderer"),
    .obj [(chars ("choices"), .arr cs)])])]

/-- One choice's contribution to the summary: its text, followed by the
percentage (ratio · 100, rounded to one decimal) when a positive vote ratio
is present. -/
def choiceContrib (t : Str) (r : Option ℚ) : Str :=
  match r with
  | some q =>
    if 0 < q then
      t ++ chars (": ") ++ fmtFloat1 (pyRound1 (q * 100)) ++ chars ("%")
    else t
  | none => t

private theorem pollChoicePiece_mkChoice (t : Str) (r : Option ℚ) :
    pollChoicePiece (mkChoice t r) =
      .ok (choiceContrib t r ++ chars (", ")) := by
  cases r with
  | none => rfl
  | some q =>
    have h0 : pollChoicePiece (mkChoice t (some q)) =
        (if decide (0 < q) then
          Except.ok (ε := PyErr) (t ++ chars (": ") ++
            fmtFloat1 (pyRound1 (q * 100)) ++ chars ("%, "))
        else Except.ok (t ++ chars (", "))) := rfl
    have h1 : choiceContrib t (some q) =
        (if 0 < q then
          t ++ chars (": ") ++ fmtFloat1 (pyRound1 (q * 100)) ++ chars ("%")
        else t) := rfl
    by_cases hq : 0 < q
    · rw [h0, if_pos (decide_eq_true hq), h1, if_pos hq]
      rw [show chars ("%, ") = chars ("%") ++ chars (", ") from rfl]
      simp [List.append_assoc]
    · rw [h0, if_neg (by simpa using hq), h1, if_neg hq]

private theorem mapM_pollChoicePiece (cs : List (Str × Option ℚ)) :
    (cs.map fun c => mkChoice c.1 c.2).mapM pollChoicePiece =
      .ok (cs.map fun c => choiceContrib c.1 c.2 ++ chars (", ")) := by
  induction cs with
  | nil => rfl
  | cons c rest ih =>
    rw [List.map_cons, List.mapM_cons, pollChoicePiece_mkChoice c.1 c.2, ih,
      List.map_cons]
    rfl

/-- Claim C6 (counterexample): with choices `A` and `""` (no vote ratios) the
claim predicts `"Poll: A, "` (join with `", "`, the empty last choice
contributing only its empty text), but `rstrip(", ")` removes every trailing
comma and space, so the code returns `"Poll: A"`. -/
theorem c6_counterexample :
    get_poll_content (mkPollPost [mkChoice (chars ("A")) none,
      mkChoice [] none]) = .ok (some (chars ("Poll: A"))) ∧
    chars ("Poll: A") ≠ chars ("Poll: A, ") := by
  exact ⟨by rfl, by decide⟩

/-- Claim C6 (amended): for a poll with at least one choice, the summary is
`"Poll: "` followed by each choice's contribution (text, with `": <pct>%"`
appended when a positive vote ratio is present, the percentage being
ratio · 100 rounded to one decimal place) each followed by `", "`, after
which all trailing `','` and `' '` characters are stripped — this removes
the final separator, and also any trailing commas or spaces of the last
choice's own text; a missing attachment or an empty choice list yields an
absent result. -/
theorem c6_poll_summary_amended (cs : List (Str × Option ℚ)) (hne : cs ≠ []) :
    get_poll_content (mkPollPost (cs.map fun c => mkChoice c.1 c.2)) =
      .ok (some (rstripCommaSpace (chars ("Poll: ") ++
        (cs.map fun c => choiceContrib c.1 c.2 ++ chars (", ")).flatten))) ∧
    get_poll_content (mkPollPost []) = .ok none ∧
    (∀ kvs : List (Str × Json),
      kvs.lookup (chars ("backstageAttachment")) = none →
      get_poll_content (.obj kvs) = .ok none) := by
  refine ⟨?_, by rfl, ?_⟩
  · have htr : (Json.arr (cs.map fun c => mkChoice c.1 c.2)).truthy = true := by
      cases cs with
      | nil => exact absurd rfl hne
      | cons a l => rfl
    have hb : pollBody (mkPollPost (cs.map fun c => mkChoice c.1 c.2)) =
        .ok (some (rstripCommaSpace (chars ("Poll: ") ++
          (cs.map fun c => choiceContrib c.1 c.2 ++ chars (", ")).flatten))) := by
      have h0 : pollBody (mkPollPost (cs.map fun c => mkChoice c.1 c.2)) =
          (if (Json.arr (cs.map fun c => mkChoice c.1 c.2)).truthy then
            ((cs.map fun c => mkChoice c.1 c.2).mapM pollChoicePiece) >>=
              (fun pieces => Except.ok
                (some (rstripCommaSpace (chars ("Poll: ") ++ pieces.flatten))))
          else Except.ok none) := rfl
      rw [h0, if_pos htr, mapM_pollChoicePiece]
      rfl
    unfold get_poll_content
    rw [hb]
  · intro kvs h
    have hb : pollBody (.obj kvs) = .error .keyError := by
      unfold pollBody
      rw [getPath_cons_keyError kvs _ _ h]
      rfl
    unfold get_poll_content
    rw [hb]

private theorem roundHalfEven_coe_int (n : ℤ) :
    roundHalfEven ((n : ℤ) : ℚ) = n := by
  unfold roundHalfEven
  rw [Int.floor_intCast]
  rw [if_pos]
  rw [sub_self]
  norm_num

private theorem fmtFloat1_tenths (n : ℤ) (q : ℚ) (h : q * 10 = (n : ℚ)) :
    fmtFloat1 q = (if n < 0 then ['-'] else []) ++
      Nat.toDigits 10 (n.natAbs / 10) ++ ['.'] ++
      Nat.toDigits 10 (n.natAbs % 10) := by
  unfold fmtFloat1
  rw [h, roundHalfEven_coe_int]

/-- Witness for C6 (amended): the spec's example — choices `A` at ratio 0.4
and `B` at 0.6 yield `"Poll: A: 40.0%, B: 60.0%"`. -/
theorem c6_poll_summary_amended_witness :
    get_poll_content (mkPollPost [mkChoice (chars ("A")) (some (2/5)),
      mkChoice (chars ("B")) (some (3/5))]) =
      .ok (some (chars ("Poll: A: 40.0%, B: 60.0%"))) := by
  have h := (c6_poll_summary_amended
    [(chars ("A"), some (2/5)), (chars ("B"), some (3/5))]
    (by intro hc; cases hc)).1
  rw [show mkPollPost [mkChoice (chars ("A")) (some (2/5)),
      mkChoice (chars ("B")) (some (3/5))] =
    mkPollPost (([(chars ("A"), some (2/5)), (chars ("B"), some (3/5))] :
      List (Str × Option ℚ)).map fun c => mkChoice c.1 c.2) from rfl, h]
  have h40 : pyRound1 ((2/5 : ℚ) * 100) * 10 = ((400 : ℤ) : ℚ) := by
    unfold pyRound1
    rw [show ((2/5 : ℚ) * 100) * 10 = ((400 : ℤ) : ℚ) from by norm_num,
      roundHalfEven_coe_int]
    norm_num
  have h60 : pyRound1 ((3/5 : ℚ) * 100) * 10 = ((600 : ℤ) : ℚ) := by
    unfold pyRound1
    rw [show ((3/5 : ℚ) * 100) * 10 = ((600 : ℤ) : ℚ) from by norm_num,
      roundHalfEven_coe_int]
    norm_num
  have hc1 : choiceContrib (chars ("A")) (some (2/5)) =
      chars ("A") ++ chars (": ") ++ chars ("40.0") ++ chars ("%") := by
    show (if 0 < (2/5 : ℚ) then chars ("A") ++ chars (": ") ++
      fmtFloat1 (pyRound1 ((2/5 : ℚ) * 100)) ++ chars ("%") else chars ("A")) = _
    rw [if_pos (by norm_num), fmtFloat1_tenths 400 _ h40]
    rfl
  have hc2 : choiceContrib (chars ("B")) (some (3/5)) =
      chars ("B") ++ chars (": ") ++ chars ("60.0") ++ chars ("%") := by
    show (if 0 < (3/5 : ℚ) then chars ("B") ++ chars (": ") ++
      fmtFloat1 (pyRound1 ((3/5 : ℚ) * 100)) ++ chars ("%") else chars ("B")) = _
    rw [if_pos (by norm_num), fmtFloat1_tenths 600 _ h60]
    rfl
  rw [show (([(chars ("A"), some (2/5)), (chars ("B"), some (3/5))] :
      List (Str × Option ℚ)).map fun c => choiceContrib c.1 c.2 ++
        chars (", ")) =
    [choiceContrib (chars ("A")) (some (2/5)) ++ chars (", "),
     choiceContrib (chars ("B")) (some (3/5)) ++ chars (", ")] from rfl]
  rw [hc1, hc2]
  rfl

end YtCommunity
